import Mathlib

/-!
Verification development for the multi-protocol message redundancy engine
(broadcast-On-All-Channels).  The definitions below are a shallow embedding of
the TypeScript source: `ChatDatabase` (src/unnamed/part_003), `ChatBroadcaster`
(src/src/chat-broadcaster.ts) and `Broadcaster.broadcast` (src/src/logger.ts).
Timestamps and latencies are modelled as `Int` (JavaScript integral numbers,
negative latency possible under clock skew).  The JavaScript marshalling
`x || null` that the database layer applies to optional arguments maps the
value 0 and the empty string to null; it is embedded explicitly as `jsOrNullI`
and `jsOrNullS`.
-/

deriving instance DecidableEq for Except

/-- Models the JavaScript marshalling `v || null` on an optional integral
value: 0 (falsy) collapses to null. -/
def jsOrNullI : Option Int → Option Int
  | some v => if v = 0 then none else some v
  | none => none

/-- Models the JavaScript marshalling `s || null` on an optional string value:
the empty string (falsy) collapses to null. -/
def jsOrNullS : Option String → Option String
  | some s => if s = "" then none else some s
  | none => none

/-! ## Evidence store rows (tables of src/unnamed/part_003, initTables) -/

/-- A row of the `messages` table. -/
structure MessageRow where
  uuid : String
  fromIdentity : String
  toIdentity : String
  content : String
  timestamp : Int
  isAcknowledgment : Bool
  firstReceivedProtocol : Option String
  firstReceivedAt : Option Int
deriving DecidableEq, Repr

/-- A row of the `message_receipts` table. -/
structure ReceiptRow where
  messageUuid : String
  protocol : String
  server : Option String
  receivedAt : Int
  latencyMs : Int
deriving DecidableEq, Repr

/-- A row of the `channel_preferences` table (unique on (identity, protocol)). -/
structure PrefRow where
  identity : String
  protocol : String
  isWorking : Bool
  lastAckAt : Option Int
  avgLatencyMs : Option Int
  preferenceOrder : Option Int
  cannotUse : Bool
deriving DecidableEq, Repr

/-- A row of the `protocol_performance` table (primary key `protocol`). -/
structure PerfRow where
  protocol : String
  totalSent : Int
  totalAcked : Int
  avgLatencyMs : Option Int
  lastUsedAt : Int
deriving DecidableEq, Repr

/-- The evidence store state: the four tables, each a list in insertion
order. -/
structure DB where
  messages : List MessageRow
  receipts : List ReceiptRow
  prefs : List PrefRow
  perf : List PerfRow
deriving DecidableEq, Repr

/-- The empty evidence store. -/
def DB.empty : DB := ⟨[], [], [], []⟩

/-! ## Database operation arguments (the TypeScript interfaces) -/

/-- Argument record of `ChatDatabase.saveMessage` (the `Message` interface of
src/unnamed/part_003). -/
structure MessageArg where
  uuid : String
  fromIdentity : String
  toIdentity : String
  content : String
  timestamp : Int
  isAcknowledgment : Bool
  firstReceivedProtocol : Option String := none
  firstReceivedAt : Option Int := none
deriving DecidableEq, Repr

/-- Argument record of `ChatDatabase.saveMessageReceipt` (the `MessageReceipt`
interface). -/
structure ReceiptArg where
  messageUuid : String
  protocol : String
  server : Option String := none
  receivedAt : Int
  latencyMs : Int
deriving DecidableEq, Repr

/-- Argument record of `ChatDatabase.updateChannelPreference` (the
`ChannelPreference` interface). -/
structure ChannelPrefArg where
  identity : String
  protocol : String
  isWorking : Bool
  lastAckAt : Option Int := none
  avgLatencyMs : Option Int := none
  preferenceOrder : Option Int := none
  cannotUse : Bool
deriving DecidableEq, Repr

/-! ## Database operations (ChatDatabase, src/unnamed/part_003) -/

/-- Embeds `ChatDatabase.saveMessage`: INSERT OR IGNORE on the unique `uuid` column;
the optional `firstReceivedProtocol` and `firstReceivedAt` arguments are
marshalled through `|| null`. -/
def saveMessage (db : DB) (m : MessageArg) : DB :=
  if db.messages.any (fun r => r.uuid = m.uuid) then db
  else { db with messages := db.messages ++
    [{ uuid := m.uuid
       fromIdentity := m.fromIdentity
       toIdentity := m.toIdentity
       content := m.content
       timestamp := m.timestamp
       isAcknowledgment := m.isAcknowledgment
       firstReceivedProtocol := jsOrNullS m.firstReceivedProtocol
       firstReceivedAt := jsOrNullI m.firstReceivedAt }] }

/-- Embeds `ChatDatabase.saveMessageReceipt`: a plain INSERT, always appends; the
optional `server` argument is marshalled through `|| null`. -/
def saveMessageReceipt (db : DB) (r : ReceiptArg) : DB :=
  { db with receipts := db.receipts ++
    [{ messageUuid := r.messageUuid
       protocol := r.protocol
       server := jsOrNullS r.server
       receivedAt := r.receivedAt
       latencyMs := r.latencyMs }] }

/-- First `channel_preferences` row with the given key, if any. -/
def findPref (l : List PrefRow) (identity protocol : String) : Option PrefRow :=
  l.find? (fun r => r.identity = identity && r.protocol = protocol)

/-- The DO UPDATE SET action of the channel-preference upsert, applied to an
existing row: overwrite everything except the key and COALESCE
`preference_order`. -/
def updRow (p : ChannelPrefArg) (r : PrefRow) : PrefRow :=
  { r with isWorking := p.isWorking
           lastAckAt := jsOrNullI p.lastAckAt
           avgLatencyMs := jsOrNullI p.avgLatencyMs
           preferenceOrder := ((jsOrNullI p.preferenceOrder).orElse (fun _ => r.preferenceOrder))
           cannotUse := p.cannotUse }

/-- The VALUES row of the INSERT branch of the upsert (all optional integer
arguments marshalled through `|| null`). -/
def insRow (p : ChannelPrefArg) : PrefRow :=
  { identity := p.identity, protocol := p.protocol, isWorking := p.isWorking
    lastAckAt := jsOrNullI p.lastAckAt, avgLatencyMs := jsOrNullI p.avgLatencyMs
    preferenceOrder := jsOrNullI p.preferenceOrder, cannotUse := p.cannotUse }

/-- Embeds `ChatDatabase.updateChannelPreference`: INSERT .. ON CONFLICT(identity,
protocol) DO UPDATE; `is_working`, `last_ack_at`, `avg_latency_ms` and
`cannot_use` are overwritten with the excluded values, `preference_order` is
COALESCEd (the existing value survives a null excluded value); the optional
integer arguments are marshalled through `|| null`. -/
def updateChannelPreference (db : DB) (p : ChannelPrefArg) : DB :=
  { db with prefs :=
      if db.prefs.any (fun r => r.identity = p.identity && r.protocol = p.protocol) then
        db.prefs.map (fun r =>
          if r.identity = p.identity && r.protocol = p.protocol then updRow p r else r)
      else db.prefs ++ [insRow p] }

/-- First `protocol_performance` row for the given protocol, if any. -/
def findPerf (l : List PerfRow) (p : String) : Option PerfRow :=
  l.find? (fun r => r.protocol = p)

/-- The DO UPDATE SET action of the protocol-aggregate upsert, applied to an
existing row. -/
def perfUpdRow (acked : Bool) (l : Option Int) (now : Int) (r : PerfRow) : PerfRow :=
  { r with totalSent := r.totalSent + 1
           totalAcked := r.totalAcked + (if acked then 1 else 0)
           avgLatencyMs :=
             match l, r.avgLatencyMs with
             | none, old => old
             | some v, none => some v
             | some v, some prior => some (Int.tdiv (prior + v) 2)
           lastUsedAt := now }

/-- The VALUES row of the INSERT branch of the aggregate upsert. -/
def perfInsRow (protocol : String) (acked : Bool) (l : Option Int) (now : Int) : PerfRow :=
  { protocol := protocol, totalSent := 1, totalAcked := (if acked then 1 else 0)
    avgLatencyMs := l, lastUsedAt := now }

/-- Embeds `ChatDatabase.updateProtocolPerformance`: INSERT .. ON CONFLICT(protocol)
DO UPDATE.  `total_sent` is incremented, `total_acked` is incremented when
`acked`; `avg_latency_ms` follows the SQL CASE: a (marshalled) non-null
latency replaces a null prior and otherwise yields `(prior + latency) / 2`
with SQLite integer division (truncation toward zero, `Int.tdiv`); the
marshalling `latencyMs || null` collapses a supplied latency of 0 to null.
`now` stands for the single `Date.now()` call of the function. -/
def updateProtocolPerformance (db : DB) (protocol : String) (acked : Bool)
    (latencyMs : Option Int) (now : Int) : DB :=
  let l := jsOrNullI latencyMs
  if (findPerf db.perf protocol).isSome then
    { db with perf := db.perf.map (fun r =>
        if r.protocol = protocol then perfUpdRow acked l now r else r) }
  else
    { db with perf := db.perf ++ [perfInsRow protocol acked l now] }

/-! ## Message envelope (src/src/chat-broadcaster.ts and, for the parts living
in message-types.ts which is not under src/, modelled from the spec) -/

/-- A stated channel preference carried inside an acknowledgment
(`ChannelPreferenceInfo`). -/
structure ChannelPreferenceInfo where
  protocol : String
  preferenceOrder : Int
  cannotUse : Bool
deriving DecidableEq, Repr

/-- The payload-discriminating part of a chat message: `type` is either
"message" or "acknowledgment"; per the data model an acknowledgment carries
`ackOfUuid`, `receivedVia` and an optional `channelPreferences` list. -/
inductive MsgBody where
  | plain : MsgBody
  | ack (ackOfUuid : String) (receivedVia : String)
      (channelPreferences : Option (List ChannelPreferenceInfo)) : MsgBody
deriving DecidableEq, Repr

/-- A deserialized chat message (`ChatMessage` / `AcknowledgmentMessage`). -/
structure Message where
  uuid : String
  content : String
  timestamp : Int
  fromMagnetLink : String
  body : MsgBody
deriving DecidableEq, Repr

/-- Modelled from the spec: `isAcknowledgment` lives in message-types.ts which
is not under src/; per the data model it holds exactly of messages whose type
is "acknowledgment" (the source also tests `message.type === "acknowledgment"`
directly). -/
def isAck (m : Message) : Bool :=
  match m.body with
  | .plain => false
  | .ack _ _ _ => true

/-- The wire name of the message type. -/
def msgTypeString (m : Message) : String :=
  match m.body with
  | .plain => "message"
  | .ack _ _ _ => "acknowledgment"

/-- Modelled from the spec: `serializeMessage` lives in message-types.ts which
is not under src/; per the spec it renders the message as a single JSON object
with the fields uuid, type, content, timestamp, fromMagnetLink and, for an
acknowledgment, ackOfUuid and receivedVia.  The claims only use this value as
an opaque payload string. -/
def serializeMessage (m : Message) : String :=
  "\x7b\"uuid\":\"" ++ m.uuid ++ "\",\"type\":\"" ++ msgTypeString m
    ++ "\",\"content\":\"" ++ m.content
    ++ "\",\"timestamp\":" ++ toString m.timestamp
    ++ ",\"fromMagnetLink\":\"" ++ m.fromMagnetLink ++ "\""
    ++ (match m.body with
        | .plain => ""
        | .ack ao rv _ => ",\"ackOfUuid\":\"" ++ ao ++ "\",\"receivedVia\":\"" ++ rv ++ "\"")
    ++ "\x7d"

/-- Modelled from the spec: `createAcknowledgment` lives in message-types.ts
which is not under src/; per the spec it builds an acknowledgment of the
original message with content `"ACK: " + ackOfUuid`, a fresh uuid, a `now()`
timestamp, the given `receivedVia` transport and the stated channel
preferences.  The fresh uuid and the clock are passed explicitly. -/
def createAcknowledgment (original : Message) (receivedVia selfMagnet : String)
    (prefs : List ChannelPreferenceInfo) (ackUuid : String) (now : Int) : Message :=
  { uuid := ackUuid
    content := "ACK: " ++ original.uuid
    timestamp := now
    fromMagnetLink := selfMagnet
    body := .ack original.uuid receivedVia (some prefs) }

/-! ## Identity decoding (identity.ts is not under src/; modelled from the
spec, sections 4.1 and 6) -/

/-- Value of a hex digit, if the character is one. -/
def hexVal (c : Char) : Option Nat :=
  if ('0' ≤ c && c ≤ '9') then some (c.toNat - 48)
  else if ('a' ≤ c && c ≤ 'f') then some (c.toNat - 87)
  else if ('A' ≤ c && c ≤ 'F') then some (c.toNat - 55)
  else none

/-- Percent-decoding of a URL component, character list form: a percent sign
followed by two hex digits decodes to that byte; a malformed escape passes
through verbatim. -/
def percentDecodeAux : List Char → List Char
  | [] => []
  | '%' :: a :: b :: rest =>
      match hexVal a, hexVal b with
      | some ha, some hb => Char.ofNat (16 * ha + hb) :: percentDecodeAux rest
      | _, _ => '%' :: a :: b :: percentDecodeAux rest
  | c :: rest => c :: percentDecodeAux rest

/-- Percent-decoding of a URL component. -/
def percentDecode (s : String) : String :=
  String.mk (percentDecodeAux s.data)

/-- True of an all-lowercase-hex character list. -/
def hexListLower (l : List Char) : Bool :=
  l.all (fun c => (('0' ≤ c && c ≤ '9') || ('a' ≤ c && c ≤ 'f')))

/-- The public parts of a decoded unified identity. -/
structure DecodedIdentity where
  secp256k1pub : String
  ed25519pub : String
  eth : String
deriving DecidableEq, Repr

/-- Splits a character list at every occurrence of the separator. -/
def splitOnCharAux (sep : Char) : List Char → List Char → List (List Char)
  | [], acc => [acc.reverse]
  | c :: rest, acc =>
      if c = sep then acc.reverse :: splitOnCharAux sep rest []
      else splitOnCharAux sep rest (c :: acc)

/-- Splits one `key=value` component at its first equals sign (the value may
itself contain equals signs, as in URLSearchParams). -/
def splitKV : List Char → List Char × List Char
  | [] => ([], [])
  | '=' :: rest => ([], rest)
  | c :: rest =>
      let kv := splitKV rest
      (c :: kv.1, kv.2)

/-- Splits a query string into (key, percent-decoded value) pairs. -/
def parseParams (q : List Char) : List (String × String) :=
  (splitOnCharAux '&' q []).map (fun kv =>
    (String.mk (splitKV kv).1, String.mk (percentDecodeAux (splitKV kv).2)))

/-- First value bound to the given key. -/
def lookupParam (ps : List (String × String)) (k : String) : Option String :=
  (ps.find? (fun p => p.1 = k)).map (fun p => p.2)

/-- Modelled from the spec: `decodeIdentity` lives in identity.ts which is not
under src/.  Per the spec the decoder parses the magnet link
`magnet:?xt=urn:identity:v1&secp256k1pub=...&ed25519pub=...&eth=...`,
tolerates unknown parameters and any parameter order, and rejects (returns a
failure, embedded as `none`) a link missing a required parameter, with
malformed hex, or with a wrong key length: secp256k1pub is 130 lowercase hex
characters starting with 04, ed25519pub is 64 lowercase hex characters, eth
is 0x followed by 40 lowercase hex characters. -/
def decodeIdentity (link : String) : Option DecodedIdentity :=
  match link.data with
  | 'm' :: 'a' :: 'g' :: 'n' :: 'e' :: 't' :: ':' :: '?' :: query =>
      let ps := parseParams query
      match lookupParam ps "xt", lookupParam ps "secp256k1pub",
            lookupParam ps "ed25519pub", lookupParam ps "eth" with
      | some xt, some sp, some ep, some eth =>
          if xt = "urn:identity:v1" && sp.data.length = 130
              && (match sp.data with
                  | '0' :: '4' :: _ => true
                  | _ => false)
              && hexListLower sp.data && ep.data.length = 64 && hexListLower ep.data
              && (match eth.data with
                  | '0' :: 'x' :: t => (t.length = 40 && hexListLower t : Bool)
                  | _ => false)
          then some { secp256k1pub := sp, ed25519pub := ep, eth := eth }
          else none
      | _, _, _, _ => none
  | _ => none

/-! ## Broadcaster environment and state (src/src/chat-broadcaster.ts and the
`Broadcaster.broadcast` fan-out of src/src/logger.ts) -/

/-- One initialized transport driver as the broadcaster sees it: its name and
the outcome its `sendVia` call would report (the drivers catch their own
errors and always return a result). -/
structure Transport where
  name : String
  ok : Bool
  latencyMs : Int
deriving DecidableEq, Repr

/-- One entry of the vector returned by `Broadcaster.broadcast`
(`BroadcastResult`). -/
structure BroadcastResult where
  protocol : String
  success : Bool
  error : Option String
  latencyMs : Option Int
deriving DecidableEq, Repr

/-- A driver-level send attempt, recorded for the effect trace. -/
structure DriverSend where
  transport : String
  recipient : String
  payload : String
deriving DecidableEq, Repr

/-- The fixed part of a `ChatBroadcaster`: own magnet link, the transports
that are enabled and initialized, and the runtime capability probes
`supportsXMTP()` and `supportsWaku()`. -/
structure Env where
  myMagnetLink : String
  transports : List Transport
  xmtpOk : Bool
  wakuOk : Bool
deriving DecidableEq, Repr

/-- The mutable state of a `ChatBroadcaster` together with its observable
effect traces: the evidence store, the `seenMessageUuids` set (a list with
membership), the `(message, protocol)` notifications dispatched to the
registered `onMessage` handlers, the acknowledgments handed to
`Broadcaster.broadcast` by the auto-ack step, and every driver-level send
attempt. -/
structure CBState where
  db : DB
  seen : List String
  events : List (Message × String)
  ackCalls : List Message
  driverSends : List DriverSend
deriving DecidableEq, Repr

/-- The initial state of a freshly constructed `ChatBroadcaster`. -/
def CBState.init : CBState := ⟨DB.empty, [], [], [], []⟩

/-- The result a driver reports for one send (each `sendVia` catches its own
errors and reports `success`, an error string on failure, and a latency
measured by the broadcaster clock). -/
def sendResult (t : Transport) : BroadcastResult :=
  { protocol := t.name
    success := t.ok
    error := if t.ok then none else some "send failed"
    latencyMs := some t.latencyMs }

/-- Embeds `Broadcaster.broadcast` (src/src/logger.ts): decode the recipient magnet
link and throw `Invalid recipient magnet link` when it does not decode,
before any driver send; otherwise launch one send per enabled and initialized
driver and collect every result. -/
def broadcastStep (env : Env) (st : CBState) (recipient payload : String) :
    CBState × Except String (List BroadcastResult) :=
  match decodeIdentity recipient with
  | none => (st, .error "Invalid recipient magnet link")
  | some _ =>
      ({ st with driverSends := st.driverSends ++
          env.transports.map (fun t => ⟨t.name, recipient, payload⟩) },
       .ok (env.transports.map sendResult))

/-- The hard-coded own channel preference list of
`ChatBroadcaster.sendAcknowledgment`. -/
def myPreferences (xmtpOk wakuOk : Bool) : List ChannelPreferenceInfo :=
  [⟨"nostr", 1, false⟩,
   ⟨"XMTP V3", 2, !xmtpOk⟩,
   ⟨"MQTT", 3, false⟩,
   ⟨"IROH", 4, false⟩,
   ⟨"Waku", 5, !wakuOk⟩]

/-- The acknowledgment `ChatBroadcaster.sendAcknowledgment` builds for a
message received via the given transport. -/
def ackOf (env : Env) (orig : Message) (receivedVia ackUuid : String) (now : Int) : Message :=
  createAcknowledgment orig receivedVia env.myMagnetLink
    (myPreferences env.xmtpOk env.wakuOk) ackUuid now

/-- The `saveMessage` argument `ChatBroadcaster.sendAcknowledgment` stores for
its acknowledgment (content is the serialized acknowledgment). -/
def ackSaveArg (env : Env) (orig : Message) (receivedVia ackUuid : String) (now : Int) :
    MessageArg :=
  { uuid := ackUuid
    fromIdentity := env.myMagnetLink
    toIdentity := orig.fromMagnetLink
    content := serializeMessage (ackOf env orig receivedVia ackUuid now)
    timestamp := now
    isAcknowledgment := true }

/-- Embeds `ChatBroadcaster.sendAcknowledgment`: build the acknowledgment, save it to
the store (as its serialized form), and broadcast it to the original sender
over all transports; a broadcast failure is caught and logged and does not
escape.  `ackUuid` is the fresh uuid minted by `createAcknowledgment` and
`now` its clock reading. -/
def sendAcknowledgment (env : Env) (st : CBState) (orig : Message)
    (receivedVia : String) (ackUuid : String) (now : Int) : CBState :=
  let ack := ackOf env orig receivedVia ackUuid now
  let st1 := { st with db := saveMessage st.db (ackSaveArg env orig receivedVia ackUuid now) }
  let st2 := { st1 with ackCalls := st1.ackCalls ++ [ack] }
  (broadcastStep env st2 orig.fromMagnetLink (serializeMessage ack)).1

/-- The `for (const pref of message.channelPreferences)` loop of
`ChatBroadcaster.handleIncomingMessage`: upsert each stated preference with
the stated order and `cannotUse` flag (neither `lastAckAt` nor `avgLatencyMs`
is supplied). -/
def applyStatedPrefs (ident : String) (prefs : List ChannelPreferenceInfo) (db : DB) : DB :=
  prefs.foldl (fun d pref =>
    updateChannelPreference d
      { identity := ident
        protocol := pref.protocol
        isWorking := !pref.cannotUse
        preferenceOrder := some pref.preferenceOrder
        cannotUse := pref.cannotUse }) db

/-- The `saveMessage` argument a first-seen arrival stores. -/
def incomingSaveArg (env : Env) (m : Message) (protocol : String) (now : Int) : MessageArg :=
  { uuid := m.uuid
    fromIdentity := m.fromMagnetLink
    toIdentity := env.myMagnetLink
    content := m.content
    timestamp := m.timestamp
    isAcknowledgment := isAck m
    firstReceivedProtocol := some protocol
    firstReceivedAt := some now }

/-- The receipt recorded for one arrival (both on the duplicate path and on
the first-seen path): `receivedAt = Date.now()` and
`latencyMs = Date.now() - message.timestamp`. -/
def receiptArgOf (m : Message) (protocol : String) (server : Option String) (now : Int) :
    ReceiptArg :=
  { messageUuid := m.uuid, protocol := protocol, server := server
    receivedAt := now, latencyMs := now - m.timestamp }

/-- The channel-preference upsert an acknowledgment arrival performs for the
transport named in its `receivedVia` field. -/
def ackPrefArg (m : Message) (rv : String) (now : Int) : ChannelPrefArg :=
  { identity := m.fromMagnetLink
    protocol := rv
    isWorking := true
    lastAckAt := some now
    avgLatencyMs := some (now - m.timestamp)
    cannotUse := false }

/-- Embeds `ChatBroadcaster.handleIncomingMessage`: the inbound pipeline for one
deserialized message.  A seen uuid records a receipt only; a first-seen
message is added to the seen set, stored, receipted, drives the
channel-preference updates when it is an acknowledgment, is dispatched to the
registered handlers, and is auto-acknowledged when it is not an
acknowledgment.  `now` stands for the `Date.now()` readings of this arrival
and `ackUuid` for the uuid a generated acknowledgment would take. -/
def handleIncomingMessage (env : Env) (st : CBState) (m : Message)
    (protocol : String) (server : Option String) (now : Int) (ackUuid : String) :
    CBState :=
  if st.seen.contains m.uuid then
    { st with db := saveMessageReceipt st.db (receiptArgOf m protocol server now) }
  else
    let st1 := { st with seen := m.uuid :: st.seen }
    let st2 := { st1 with db := saveMessage st1.db (incomingSaveArg env m protocol now) }
    let st3 := { st2 with db := saveMessageReceipt st2.db (receiptArgOf m protocol server now) }
    let st4 :=
      match m.body with
      | .plain => st3
      | .ack _ rv cps =>
          let stA := { st3 with db := updateChannelPreference st3.db (ackPrefArg m rv now) }
          match cps with
          | none => stA
          | some prefs => { stA with db := applyStatedPrefs m.fromMagnetLink prefs stA.db }
    let st5 := { st4 with events := st4.events ++ [(m, protocol)] }
    match m.body with
    | .plain => sendAcknowledgment env st5 m protocol ackUuid now
    | .ack _ _ _ => st5

/-- One inbound arrival: the deserialized message, the transport it arrived
on, the optional server tag, the clock reading, and the fresh uuid a
generated acknowledgment would take. -/
structure Arrival where
  msg : Message
  protocol : String
  server : Option String
  now : Int
  ackUuid : String
deriving DecidableEq, Repr

/-- A sequence of inbound arrivals processed in order (one interleaving of
the per-transport event streams). -/
def processArrivals (env : Env) (st : CBState) (arrivals : List Arrival) : CBState :=
  arrivals.foldl (fun s a => handleIncomingMessage env s a.msg a.protocol a.server a.now a.ackUuid) st

/-- Embeds `ChatBroadcaster.sendMessage`: build the outbound message, save it to the
store, broadcast it (which throws on an invalid recipient magnet link, and
the exception propagates out of sendMessage), then fold every result into the
protocol aggregates.  `uuid` is the fresh `crypto.randomUUID()` and `now` the
clock reading. -/
def sendMessage (env : Env) (st : CBState) (recipientMagnet content uuid : String)
    (now : Int) : CBState × Except String (List BroadcastResult) :=
  let oarg : MessageArg :=
    { uuid := uuid
      fromIdentity := env.myMagnetLink
      toIdentity := recipientMagnet
      content := content
      timestamp := now
      isAcknowledgment := false }
  let st1 := { st with db := saveMessage st.db oarg }
  match broadcastStep env st1 recipientMagnet (serializeMessage
      { uuid := uuid, content := content, timestamp := now
        fromMagnetLink := env.myMagnetLink, body := .plain }) with
  | (st2, .error e) => (st2, .error e)
  | (st2, .ok results) =>
      let db2 := results.foldl
        (fun d r => updateProtocolPerformance d r.protocol r.success r.latencyMs now) st2.db
      ({ st2 with db := db2 }, .ok results)

/-! ## Retry on busy (ChatDatabase.executeWithRetry, src/unnamed/part_003) -/

/-- An error the store operation can raise: the SQLITE_BUSY error or any
other error. -/
inductive DbError where
  | busy : DbError
  | other (msg : String) : DbError
deriving DecidableEq, Repr

/-- The backoff delay taken before retry number i+1:
`delayMs * Math.pow(2, i) + Math.random() * 50`, with the random jitter
passed in as a function of the attempt index. -/
def retryDelay (delayMs : ℚ) (jitter : Nat → ℚ) (i : Nat) : ℚ :=
  delayMs * 2 ^ i + jitter i

/-- The retry loop of `ChatDatabase.executeWithRetry`, started at attempt
index `i` with `fuel` loop iterations left.  The operation outcome for each
attempt index is given by `op`; `last` is the `lastError` variable.  Returns
the overall outcome together with the list of backoff delays slept.  When the
fuel runs out the dead `throw lastError` line after the loop is modelled by
rethrowing `last`. -/
def retryGo (op : Nat → Except DbError α) (jitter : Nat → ℚ) (delayMs : ℚ)
    (maxRetries : Nat) : Nat → Nat → Option DbError → List ℚ →
    Except DbError α × List ℚ
  | _, 0, last, delays => (.error (last.getD (.other "undefined")), delays)
  | i, fuel + 1, _, delays =>
      match op i with
      | .ok v => (.ok v, delays)
      | .error e =>
          if e = .busy ∧ i < maxRetries - 1 then
            retryGo op jitter delayMs maxRetries (i + 1) fuel (some e)
              (delays ++ [retryDelay delayMs jitter i])
          else (.error e, delays)

/-- Embeds `ChatDatabase.executeWithRetry` with its default arguments
(maxRetries = 5, delayMs = 100). -/
def executeWithRetry (op : Nat → Except DbError α) (jitter : Nat → ℚ)
    (maxRetries : Nat := 5) (delayMs : ℚ := 100) : Except DbError α × List ℚ :=
  retryGo op jitter delayMs maxRetries 0 maxRetries none []

/-! ## Counting helpers -/

/-- Number of `messages` rows carrying the given uuid. -/
def countMsgRows (db : DB) (u : String) : Nat :=
  (db.messages.filter (fun r => r.uuid = u)).length

/-- Number of `message_receipts` rows carrying the given message uuid. -/
def countReceiptRows (db : DB) (u : String) : Nat :=
  (db.receipts.filter (fun r => r.messageUuid = u)).length

/-- Number of arrivals in a list whose message carries the given uuid. -/
def countArrivals (arrs : List Arrival) (u : String) : Nat :=
  (arrs.filter (fun a => a.msg.uuid = u)).length

/-! ## Frame lemmas for the store operations -/

theorem saveMessage_receipts (db : DB) (a : MessageArg) :
    (saveMessage db a).receipts = db.receipts := by
  unfold saveMessage; split <;> rfl

theorem saveMessage_prefs (db : DB) (a : MessageArg) :
    (saveMessage db a).prefs = db.prefs := by
  unfold saveMessage; split <;> rfl

theorem saveMessage_perf (db : DB) (a : MessageArg) :
    (saveMessage db a).perf = db.perf := by
  unfold saveMessage; split <;> rfl

theorem saveMessageReceipt_messages (db : DB) (r : ReceiptArg) :
    (saveMessageReceipt db r).messages = db.messages := rfl

theorem saveMessageReceipt_prefs (db : DB) (r : ReceiptArg) :
    (saveMessageReceipt db r).prefs = db.prefs := rfl

theorem saveMessageReceipt_perf (db : DB) (r : ReceiptArg) :
    (saveMessageReceipt db r).perf = db.perf := rfl

theorem updateChannelPreference_messages (db : DB) (p : ChannelPrefArg) :
    (updateChannelPreference db p).messages = db.messages := rfl

theorem updateChannelPreference_receipts (db : DB) (p : ChannelPrefArg) :
    (updateChannelPreference db p).receipts = db.receipts := rfl

theorem updateChannelPreference_perf (db : DB) (p : ChannelPrefArg) :
    (updateChannelPreference db p).perf = db.perf := rfl

theorem applyStatedPrefs_messages (i : String) (ps : List ChannelPreferenceInfo) (db : DB) :
    (applyStatedPrefs i ps db).messages = db.messages := by
  induction ps generalizing db with
  | nil => rfl
  | cons p t ih =>
      simp only [applyStatedPrefs, List.foldl_cons] at ih ⊢
      rw [ih, updateChannelPreference_messages]

theorem applyStatedPrefs_receipts (i : String) (ps : List ChannelPreferenceInfo) (db : DB) :
    (applyStatedPrefs i ps db).receipts = db.receipts := by
  induction ps generalizing db with
  | nil => rfl
  | cons p t ih =>
      simp only [applyStatedPrefs, List.foldl_cons] at ih ⊢
      rw [ih, updateChannelPreference_receipts]

theorem applyStatedPrefs_perf (i : String) (ps : List ChannelPreferenceInfo) (db : DB) :
    (applyStatedPrefs i ps db).perf = db.perf := by
  induction ps generalizing db with
  | nil => rfl
  | cons p t ih =>
      simp only [applyStatedPrefs, List.foldl_cons] at ih ⊢
      rw [ih, updateChannelPreference_perf]

theorem saveMessage_messages_congr {db1 db2 : DB} (a : MessageArg)
    (h : db1.messages = db2.messages) :
    (saveMessage db1 a).messages = (saveMessage db2 a).messages := by
  unfold saveMessage
  rw [h]
  split <;> simp [h]

/-! ## Counting lemmas -/

theorem countMsgRows_ne_zero_iff (db : DB) (u : String) :
    countMsgRows db u ≠ 0 ↔ db.messages.any (fun r => r.uuid = u) = true := by
  unfold countMsgRows
  constructor
  · intro h
    rcases List.exists_mem_of_length_pos (Nat.pos_of_ne_zero h) with ⟨r, hr⟩
    have hm := List.mem_filter.mp hr
    exact List.any_eq_true.mpr ⟨r, hm.1, hm.2⟩
  · intro hany hzero
    rcases List.any_eq_true.mp hany with ⟨r, hr, hru⟩
    have hmem : r ∈ db.messages.filter (fun r => r.uuid = u) :=
      List.mem_filter.mpr ⟨hr, hru⟩
    have := List.length_pos.mpr (List.ne_nil_of_mem hmem)
    omega

theorem saveMessage_of_present (db : DB) (a : MessageArg)
    (h : countMsgRows db a.uuid ≠ 0) : saveMessage db a = db := by
  unfold saveMessage
  rw [if_pos ((countMsgRows_ne_zero_iff db a.uuid).mp h)]

theorem countMsgRows_saveMessage_ne (db : DB) (a : MessageArg) (u : String)
    (h : a.uuid ≠ u) : countMsgRows (saveMessage db a) u = countMsgRows db u := by
  unfold saveMessage
  split
  · rfl
  · simp [countMsgRows, List.filter_append, h]

theorem countMsgRows_saveMessage_self (db : DB) (a : MessageArg)
    (h : countMsgRows db a.uuid = 0) :
    countMsgRows (saveMessage db a) a.uuid = 1 := by
  have hnil : db.messages.filter (fun r => r.uuid = a.uuid) = [] :=
    List.length_eq_zero.mp h
  unfold saveMessage
  split
  · rename_i hany
    rcases List.any_eq_true.mp hany with ⟨r, hr, hru⟩
    have hmem : r ∈ db.messages.filter (fun r => r.uuid = a.uuid) :=
      List.mem_filter.mpr ⟨hr, hru⟩
    simp [hnil] at hmem
  · simp [countMsgRows, List.filter_append, hnil]

theorem countReceiptRows_saveMessageReceipt (db : DB) (r : ReceiptArg) (u : String) :
    countReceiptRows (saveMessageReceipt db r) u =
      countReceiptRows db u + (if r.messageUuid = u then 1 else 0) := by
  unfold saveMessageReceipt countReceiptRows
  simp [List.filter_append]
  split <;> simp [*]

/-! ## Pipeline characterization lemmas -/

theorem sendAcknowledgment_eq (env : Env) (st : CBState) (orig : Message)
    (rv au : String) (now : Int) :
    sendAcknowledgment env st orig rv au now =
      { st with
        db := saveMessage st.db (ackSaveArg env orig rv au now)
        ackCalls := st.ackCalls ++ [ackOf env orig rv au now]
        driverSends := st.driverSends ++
          (if (decodeIdentity orig.fromMagnetLink).isSome then
            env.transports.map
              (fun t => ⟨t.name, orig.fromMagnetLink,
                serializeMessage (ackOf env orig rv au now)⟩)
          else []) } := by
  unfold sendAcknowledgment broadcastStep
  cases h : decodeIdentity orig.fromMagnetLink <;> simp [h]

theorem handleIncoming_dup (env : Env) (st : CBState) (m : Message) (p : String)
    (s : Option String) (now : Int) (au : String) (h : m.uuid ∈ st.seen) :
    handleIncomingMessage env st m p s now au =
      { st with db := saveMessageReceipt st.db (receiptArgOf m p s now) } := by
  have hc : st.seen.contains m.uuid = true := by simpa using h
  unfold handleIncomingMessage
  rw [if_pos hc]

theorem handleIncoming_new_plain (env : Env) (st : CBState) (m : Message) (p : String)
    (s : Option String) (now : Int) (au : String)
    (h : ¬ m.uuid ∈ st.seen) (hb : m.body = .plain) :
    handleIncomingMessage env st m p s now au =
      { st with
        seen := m.uuid :: st.seen
        db := saveMessage
          (saveMessageReceipt (saveMessage st.db (incomingSaveArg env m p now))
            (receiptArgOf m p s now))
          (ackSaveArg env m p au now)
        events := st.events ++ [(m, p)]
        ackCalls := st.ackCalls ++ [ackOf env m p au now]
        driverSends := st.driverSends ++
          (if (decodeIdentity m.fromMagnetLink).isSome then
            env.transports.map
              (fun t => ⟨t.name, m.fromMagnetLink,
                serializeMessage (ackOf env m p au now)⟩)
          else []) } := by
  have hc : st.seen.contains m.uuid = false := by simpa using h
  unfold handleIncomingMessage
  rw [if_neg (by simpa using h)]
  simp only [hb]
  rw [sendAcknowledgment_eq]

theorem handleIncoming_new_ack (env : Env) (st : CBState) (m : Message) (p : String)
    (s : Option String) (now : Int) (au : String) (ao rv : String)
    (cps : Option (List ChannelPreferenceInfo))
    (h : ¬ m.uuid ∈ st.seen) (hb : m.body = .ack ao rv cps) :
    handleIncomingMessage env st m p s now au =
      { st with
        seen := m.uuid :: st.seen
        db :=
          (match cps with
           | none =>
              updateChannelPreference
                (saveMessageReceipt (saveMessage st.db (incomingSaveArg env m p now))
                  (receiptArgOf m p s now))
                (ackPrefArg m rv now)
           | some prefs =>
              applyStatedPrefs m.fromMagnetLink prefs
                (updateChannelPreference
                  (saveMessageReceipt (saveMessage st.db (incomingSaveArg env m p now))
                    (receiptArgOf m p s now))
                  (ackPrefArg m rv now)))
        events := st.events ++ [(m, p)] } := by
  have hc : st.seen.contains m.uuid = false := by simpa using h
  unfold handleIncomingMessage
  rw [if_neg (by simpa using h)]
  simp only [hb]
  cases cps <;> rfl

/-! ## Per-arrival effect lemmas -/

theorem countMsgRows_saveMessageReceipt (db : DB) (r : ReceiptArg) (u : String) :
    countMsgRows (saveMessageReceipt db r) u = countMsgRows db u := by
  unfold countMsgRows
  rw [saveMessageReceipt_messages]

theorem countMsgRows_updateChannelPreference (db : DB) (p : ChannelPrefArg) (u : String) :
    countMsgRows (updateChannelPreference db p) u = countMsgRows db u := by
  unfold countMsgRows
  rw [updateChannelPreference_messages]

theorem countMsgRows_applyStatedPrefs (i : String) (ps : List ChannelPreferenceInfo)
    (db : DB) (u : String) :
    countMsgRows (applyStatedPrefs i ps db) u = countMsgRows db u := by
  unfold countMsgRows
  rw [applyStatedPrefs_messages]

theorem countReceiptRows_saveMessage (db : DB) (a : MessageArg) (u : String) :
    countReceiptRows (saveMessage db a) u = countReceiptRows db u := by
  unfold countReceiptRows
  rw [saveMessage_receipts]

theorem countReceiptRows_updateChannelPreference (db : DB) (p : ChannelPrefArg) (u : String) :
    countReceiptRows (updateChannelPreference db p) u = countReceiptRows db u := by
  unfold countReceiptRows
  rw [updateChannelPreference_receipts]

theorem countReceiptRows_applyStatedPrefs (i : String) (ps : List ChannelPreferenceInfo)
    (db : DB) (u : String) :
    countReceiptRows (applyStatedPrefs i ps db) u = countReceiptRows db u := by
  unfold countReceiptRows
  rw [applyStatedPrefs_receipts]

theorem seen_handleIncoming (env : Env) (st : CBState) (m : Message) (p : String)
    (s : Option String) (now : Int) (au : String) :
    (handleIncomingMessage env st m p s now au).seen =
      if m.uuid ∈ st.seen then st.seen else m.uuid :: st.seen := by
  by_cases h : m.uuid ∈ st.seen
  · rw [handleIncoming_dup env st m p s now au h, if_pos h]
  · rw [if_neg h]
    cases hb : m.body with
    | plain => rw [handleIncoming_new_plain env st m p s now au h hb]
    | ack ao rv cps => rw [handleIncoming_new_ack env st m p s now au ao rv cps h hb]

theorem countMsg_handleIncoming_dup (env : Env) (st : CBState) (m : Message) (p : String)
    (s : Option String) (now : Int) (au : String) (u : String) (h : m.uuid ∈ st.seen) :
    countMsgRows (handleIncomingMessage env st m p s now au).db u = countMsgRows st.db u := by
  rw [handleIncoming_dup env st m p s now au h]
  exact countMsgRows_saveMessageReceipt st.db _ u

theorem countMsg_handleIncoming_ne (env : Env) (st : CBState) (m : Message) (p : String)
    (s : Option String) (now : Int) (au : String) (u : String)
    (h : ¬ m.uuid ∈ st.seen) (hm : m.uuid ≠ u) (hau : au ≠ u) :
    countMsgRows (handleIncomingMessage env st m p s now au).db u = countMsgRows st.db u := by
  cases hb : m.body with
  | plain =>
      rw [handleIncoming_new_plain env st m p s now au h hb]
      show countMsgRows (saveMessage _ (ackSaveArg env m p au now)) u = _
      rw [countMsgRows_saveMessage_ne _ _ _ (show (ackSaveArg env m p au now).uuid ≠ u from hau),
        countMsgRows_saveMessageReceipt,
        countMsgRows_saveMessage_ne _ _ _ (show (incomingSaveArg env m p now).uuid ≠ u from hm)]
  | ack ao rv cps =>
      rw [handleIncoming_new_ack env st m p s now au ao rv cps h hb]
      cases cps with
      | none =>
          show countMsgRows (updateChannelPreference _ _) u = _
          rw [countMsgRows_updateChannelPreference, countMsgRows_saveMessageReceipt,
            countMsgRows_saveMessage_ne _ _ _ (show (incomingSaveArg env m p now).uuid ≠ u from hm)]
      | some prefs =>
          show countMsgRows (applyStatedPrefs _ _ _) u = _
          rw [countMsgRows_applyStatedPrefs, countMsgRows_updateChannelPreference,
            countMsgRows_saveMessageReceipt,
            countMsgRows_saveMessage_ne _ _ _ (show (incomingSaveArg env m p now).uuid ≠ u from hm)]

theorem countMsg_handleIncoming_self (env : Env) (st : CBState) (m : Message) (p : String)
    (s : Option String) (now : Int) (au : String)
    (h : ¬ m.uuid ∈ st.seen) (h0 : countMsgRows st.db m.uuid = 0) (hau : au ≠ m.uuid) :
    countMsgRows (handleIncomingMessage env st m p s now au).db m.uuid = 1 := by
  have hself : countMsgRows (saveMessage st.db (incomingSaveArg env m p now)) m.uuid = 1 :=
    countMsgRows_saveMessage_self st.db (incomingSaveArg env m p now) h0
  cases hb : m.body with
  | plain =>
      rw [handleIncoming_new_plain env st m p s now au h hb]
      show countMsgRows (saveMessage _ (ackSaveArg env m p au now)) m.uuid = 1
      rw [countMsgRows_saveMessage_ne _ _ _ (show (ackSaveArg env m p au now).uuid ≠ m.uuid from hau),
        countMsgRows_saveMessageReceipt]
      exact hself
  | ack ao rv cps =>
      rw [handleIncoming_new_ack env st m p s now au ao rv cps h hb]
      cases cps with
      | none =>
          show countMsgRows (updateChannelPreference _ _) m.uuid = 1
          rw [countMsgRows_updateChannelPreference, countMsgRows_saveMessageReceipt]
          exact hself
      | some prefs =>
          show countMsgRows (applyStatedPrefs _ _ _) m.uuid = 1
          rw [countMsgRows_applyStatedPrefs, countMsgRows_updateChannelPreference,
            countMsgRows_saveMessageReceipt]
          exact hself

theorem countRcpt_handleIncoming (env : Env) (st : CBState) (m : Message) (p : String)
    (s : Option String) (now : Int) (au : String) (u : String) :
    countReceiptRows (handleIncomingMessage env st m p s now au).db u =
      countReceiptRows st.db u + (if m.uuid = u then 1 else 0) := by
  have hstep : ∀ db : DB, countReceiptRows (saveMessageReceipt db (receiptArgOf m p s now)) u =
      countReceiptRows db u + (if m.uuid = u then 1 else 0) := fun db =>
    countReceiptRows_saveMessageReceipt db (receiptArgOf m p s now) u
  by_cases h : m.uuid ∈ st.seen
  · rw [handleIncoming_dup env st m p s now au h]
    exact hstep st.db
  · cases hb : m.body with
    | plain =>
        rw [handleIncoming_new_plain env st m p s now au h hb]
        show countReceiptRows (saveMessage _ (ackSaveArg env m p au now)) u = _
        rw [countReceiptRows_saveMessage, hstep, countReceiptRows_saveMessage]
    | ack ao rv cps =>
        rw [handleIncoming_new_ack env st m p s now au ao rv cps h hb]
        cases cps with
        | none =>
            show countReceiptRows (updateChannelPreference _ _) u = _
            rw [countReceiptRows_updateChannelPreference, hstep, countReceiptRows_saveMessage]
        | some prefs =>
            show countReceiptRows (applyStatedPrefs _ _ _) u = _
            rw [countReceiptRows_applyStatedPrefs, countReceiptRows_updateChannelPreference,
              hstep, countReceiptRows_saveMessage]

/-! ## Arrival-sequence lemmas -/

theorem processArrivals_cons (env : Env) (st : CBState) (a : Arrival) (t : List Arrival) :
    processArrivals env st (a :: t) =
      processArrivals env
        (handleIncomingMessage env st a.msg a.protocol a.server a.now a.ackUuid) t := by
  simp [processArrivals]

theorem countArrivals_cons (a : Arrival) (t : List Arrival) (u : String) :
    countArrivals (a :: t) u = (if a.msg.uuid = u then 1 else 0) + countArrivals t u := by
  unfold countArrivals
  rw [List.filter_cons]
  by_cases h : a.msg.uuid = u
  · simp [h]
    omega
  · simp [h]

theorem processArrivals_already_seen (env : Env) (u : String) (arrs : List Arrival)
    (st : CBState) (hin : u ∈ st.seen) (hfresh : ∀ a ∈ arrs, a.ackUuid ≠ u) :
    u ∈ (processArrivals env st arrs).seen ∧
    countMsgRows (processArrivals env st arrs).db u = countMsgRows st.db u ∧
    countReceiptRows (processArrivals env st arrs).db u =
      countReceiptRows st.db u + countArrivals arrs u := by
  induction arrs generalizing st with
  | nil => simp [processArrivals, countArrivals, hin]
  | cons a t ih =>
      have hfa : a.ackUuid ≠ u := hfresh a (List.mem_cons_self a t)
      have hft : ∀ b ∈ t, b.ackUuid ≠ u := fun b hb => hfresh b (List.mem_cons_of_mem a hb)
      set st1 := handleIncomingMessage env st a.msg a.protocol a.server a.now a.ackUuid with hst1
      have hseen1 : u ∈ st1.seen := by
        rw [hst1, seen_handleIncoming]
        split
        · exact hin
        · exact List.mem_cons_of_mem _ hin
      have hmsg1 : countMsgRows st1.db u = countMsgRows st.db u := by
        by_cases hd : a.msg.uuid ∈ st.seen
        · exact countMsg_handleIncoming_dup env st a.msg a.protocol a.server a.now a.ackUuid u hd
        · have hmu : a.msg.uuid ≠ u := fun hEq => hd (hEq ▸ hin)
          exact countMsg_handleIncoming_ne env st a.msg a.protocol a.server a.now a.ackUuid u hd hmu hfa
      have hrc1 : countReceiptRows st1.db u =
          countReceiptRows st.db u + (if a.msg.uuid = u then 1 else 0) :=
        countRcpt_handleIncoming env st a.msg a.protocol a.server a.now a.ackUuid u
      obtain ⟨h1, h2, h3⟩ := ih st1 hseen1 hft
      rw [processArrivals_cons, countArrivals_cons]
      refine ⟨h1, ?_, ?_⟩
      · rw [h2, hmsg1]
      · rw [h3, hrc1]
        omega

theorem processArrivals_fresh (env : Env) (u : String) (arrs : List Arrival)
    (st : CBState) (hnot : u ∉ st.seen) (h0 : countMsgRows st.db u = 0)
    (r0 : countReceiptRows st.db u = 0) (hfresh : ∀ a ∈ arrs, a.ackUuid ≠ u)
    (hk : countArrivals arrs u ≠ 0) :
    countMsgRows (processArrivals env st arrs).db u = 1 ∧
    countReceiptRows (processArrivals env st arrs).db u = countArrivals arrs u := by
  induction arrs generalizing st with
  | nil => simp [countArrivals] at hk
  | cons a t ih =>
      have hfa : a.ackUuid ≠ u := hfresh a (List.mem_cons_self a t)
      have hft : ∀ b ∈ t, b.ackUuid ≠ u := fun b hb => hfresh b (List.mem_cons_of_mem a hb)
      set st1 := handleIncomingMessage env st a.msg a.protocol a.server a.now a.ackUuid with hst1
      rw [processArrivals_cons, countArrivals_cons]
      by_cases hmu : a.msg.uuid = u
      · have hd : ¬ a.msg.uuid ∈ st.seen := by rw [hmu]; exact hnot
        have hm1 : countMsgRows st1.db u = 1 := by
          rw [hst1, ← hmu]
          exact countMsg_handleIncoming_self env st a.msg a.protocol a.server a.now a.ackUuid hd
            (by rw [hmu]; exact h0) (by rw [hmu]; exact hfa)
        have hr1 : countReceiptRows st1.db u = 1 := by
          rw [hst1, countRcpt_handleIncoming, r0, if_pos hmu]
        have hseen1 : u ∈ st1.seen := by
          rw [hst1, seen_handleIncoming, if_neg hd, ← hmu]
          exact List.mem_cons_self _ _
        obtain ⟨_, h2, h3⟩ := processArrivals_already_seen env u t st1 hseen1 hft
        rw [if_pos hmu]
        exact ⟨by rw [h2, hm1], by rw [h3, hr1]⟩
      · have hm1 : countMsgRows st1.db u = countMsgRows st.db u := by
          by_cases hd : a.msg.uuid ∈ st.seen
          · exact countMsg_handleIncoming_dup env st a.msg a.protocol a.server a.now a.ackUuid u hd
          · exact countMsg_handleIncoming_ne env st a.msg a.protocol a.server a.now a.ackUuid u hd hmu hfa
        have hr1 : countReceiptRows st1.db u = countReceiptRows st.db u := by
          rw [hst1, countRcpt_handleIncoming, if_neg hmu]
          omega
        have hnot1 : u ∉ st1.seen := by
          rw [hst1, seen_handleIncoming]
          split
          · exact hnot
          · intro hmem
            rcases List.mem_cons.mp hmem with hEq | hmem2
            · exact hmu hEq.symm
            · exact hnot hmem2
        have hk1 : countArrivals t u ≠ 0 := by
          rw [countArrivals_cons, if_neg hmu] at hk
          simpa using hk
        have := ih st1 hnot1 (by rw [hm1]; exact h0) (by rw [hr1]; exact r0) hft hk1
        rw [if_neg hmu]
        exact ⟨this.1, by rw [this.2]; omega⟩

/-! ## Characterization of the channel-preference upsert -/

theorem find?_map_self {α : Type} (l : List α) (f : α → α) (pb : α → Bool)
    (hf : ∀ a, pb (f a) = pb a) :
    (l.map f).find? pb = Option.map f (l.find? pb) := by
  induction l with
  | nil => rfl
  | cons a t ih =>
      simp only [List.map_cons]
      by_cases h : pb a = true
      · rw [List.find?_cons_of_pos _ (by rw [hf]; exact h), List.find?_cons_of_pos _ h]
        rfl
      · rw [List.find?_cons_of_neg _ (by rw [hf]; exact h), List.find?_cons_of_neg _ h, ih]

theorem find?_map_updRow_eqkey (l : List PrefRow) (p : ChannelPrefArg) :
    (l.map (fun r =>
        if r.identity = p.identity && r.protocol = p.protocol then updRow p r else r)).find?
      (fun r => r.identity = p.identity && r.protocol = p.protocol) =
    (l.find? (fun r => r.identity = p.identity && r.protocol = p.protocol)).map (updRow p) := by
  rw [find?_map_self l _ _ (fun r => by
    by_cases h : (decide (r.identity = p.identity) && decide (r.protocol = p.protocol)) = true
    · rw [if_pos h]
      rfl
    · rw [if_neg h])]
  cases hfind : l.find? (fun r => r.identity = p.identity && r.protocol = p.protocol) with
  | none => rfl
  | some r0 =>
      have hp : (decide (r0.identity = p.identity) && decide (r0.protocol = p.protocol)) = true := by
        have := List.find?_some hfind
        simpa using this
      simp only [Option.map_some']
      rw [if_pos hp]

theorem find?_map_updRow_nekey (l : List PrefRow) (p : ChannelPrefArg) (id q : String)
    (h : ¬ (id = p.identity ∧ q = p.protocol)) :
    (l.map (fun r =>
        if r.identity = p.identity && r.protocol = p.protocol then updRow p r else r)).find?
      (fun r => r.identity = id && r.protocol = q) =
    l.find? (fun r => r.identity = id && r.protocol = q) := by
  rw [find?_map_self l _ _ (fun r => by
    by_cases hk : (decide (r.identity = p.identity) && decide (r.protocol = p.protocol)) = true
    · rw [if_pos hk]
      rfl
    · rw [if_neg hk])]
  cases hfind : l.find? (fun r => r.identity = id && r.protocol = q) with
  | none => rfl
  | some r1 =>
      have hp0 : (decide (r1.identity = id) && decide (r1.protocol = q)) = true := by
        have := List.find?_some hfind
        simpa using this
      have hp := Bool.and_eq_true_iff.mp hp0
      have h1 : r1.identity = id := of_decide_eq_true hp.1
      have h2 : r1.protocol = q := of_decide_eq_true hp.2
      have hknot : ¬ (decide (r1.identity = p.identity) && decide (r1.protocol = p.protocol)) = true := by
        intro hc
        have hcp := Bool.and_eq_true_iff.mp hc
        exact h ⟨h1 ▸ (of_decide_eq_true hcp.1), h2 ▸ (of_decide_eq_true hcp.2)⟩
      simp only [Option.map_some']
      rw [if_neg hknot]


theorem findPref_updateChannelPreference (db : DB) (p : ChannelPrefArg) (id q : String) :
    findPref (updateChannelPreference db p).prefs id q =
      if id = p.identity ∧ q = p.protocol then
        some { identity := p.identity
               protocol := p.protocol
               isWorking := p.isWorking
               lastAckAt := jsOrNullI p.lastAckAt
               avgLatencyMs := jsOrNullI p.avgLatencyMs
               preferenceOrder := ((jsOrNullI p.preferenceOrder).orElse
                 (fun _ => (findPref db.prefs p.identity p.protocol).bind
                    (fun r => r.preferenceOrder)))
               cannotUse := p.cannotUse }
      else findPref db.prefs id q := by
  unfold updateChannelPreference findPref
  by_cases hany : (db.prefs.any (fun r => r.identity = p.identity && r.protocol = p.protocol)) = true
  · rw [if_pos hany]
    by_cases hk : id = p.identity ∧ q = p.protocol
    · obtain ⟨h1, h2⟩ := hk
      rw [if_pos ⟨h1, h2⟩, h1, h2, find?_map_updRow_eqkey]
      have hsome : (db.prefs.find?
          (fun r => r.identity = p.identity && r.protocol = p.protocol)).isSome := by
        rw [List.find?_isSome]
        exact List.any_eq_true.mp hany
      obtain ⟨r0, hr0⟩ := Option.isSome_iff_exists.mp hsome
      rw [hr0]
      have hp : r0.identity = p.identity ∧ r0.protocol = p.protocol := by
        have := List.find?_some hr0
        simpa using this
      simp only [Option.map_some', Option.some_bind, Option.some.injEq]
      simp [updRow, hp.1, hp.2]
    · rw [if_neg hk, find?_map_updRow_nekey _ _ _ _ hk]
  · rw [if_neg hany]
    rw [List.find?_append]
    have hnone : db.prefs.find?
        (fun r => r.identity = p.identity && r.protocol = p.protocol) = none := by
      rw [List.find?_eq_none]
      intro r hr hc
      exact hany (List.any_eq_true.mpr ⟨r, hr, hc⟩)
    by_cases hk : id = p.identity ∧ q = p.protocol
    · obtain ⟨h1, h2⟩ := hk
      rw [if_pos ⟨h1, h2⟩]
      have hnone2 : db.prefs.find? (fun r => r.identity = id && r.protocol = q) = none := by
        rw [h1, h2]
        exact hnone
      rw [hnone2]
      simp only [Option.none_or]
      have hins : (decide ((insRow p).identity = id) && decide ((insRow p).protocol = q)) = true := by
        simp [insRow, h1.symm, h2.symm]
      have hsing : List.find? (fun r => r.identity = id && r.protocol = q) [insRow p] =
          some (insRow p) := List.find?_cons_of_pos _ hins
      rw [hsing, hnone]
      simp only [Option.none_bind, Option.some.injEq, insRow]
      cases hpo : jsOrNullI p.preferenceOrder <;> simp [Option.orElse, hpo]
    · rw [if_neg hk]
      have hins : ¬ (decide ((insRow p).identity = id) && decide ((insRow p).protocol = q)) = true := by
        intro hc
        have hcp := Bool.and_eq_true_iff.mp hc
        exact hk ⟨(of_decide_eq_true hcp.1).symm, (of_decide_eq_true hcp.2).symm⟩
      have hsing : List.find? (fun r => r.identity = id && r.protocol = q) [insRow p] =
          List.find? (fun r => r.identity = id && r.protocol = q) [] :=
        List.find?_cons_of_neg _ hins
      rw [hsing]
      simp



/-! ## The stated-preferences loop through the findPref view -/

theorem updateChannelPreference_prefs_def (db : DB) (pa : ChannelPrefArg) :
    (updateChannelPreference db pa).prefs =
      (if db.prefs.any (fun r => r.identity = pa.identity && r.protocol = pa.protocol) then
        db.prefs.map (fun r =>
          if r.identity = pa.identity && r.protocol = pa.protocol then updRow pa r else r)
      else db.prefs ++ [insRow pa]) := rfl

theorem updateChannelPreference_prefs_congr (db1 db2 : DB) (pa : ChannelPrefArg)
    (h : db1.prefs = db2.prefs) :
    (updateChannelPreference db1 pa).prefs = (updateChannelPreference db2 pa).prefs := by
  rw [updateChannelPreference_prefs_def, updateChannelPreference_prefs_def, h]

theorem applyStatedPrefs_prefs_congr (i : String) (ps : List ChannelPreferenceInfo)
    (db1 db2 : DB) (h : db1.prefs = db2.prefs) :
    (applyStatedPrefs i ps db1).prefs = (applyStatedPrefs i ps db2).prefs := by
  induction ps generalizing db1 db2 with
  | nil => exact h
  | cons e t ih =>
      simp only [applyStatedPrefs, List.foldl_cons] at ih ⊢
      exact ih _ _ (updateChannelPreference_prefs_congr db1 db2 _ h)

theorem findPref_applyStatedPrefs_ne_ident (i : String) (ps : List ChannelPreferenceInfo)
    (db : DB) (id q : String) (h : id ≠ i) :
    findPref (applyStatedPrefs i ps db).prefs id q = findPref db.prefs id q := by
  induction ps generalizing db with
  | nil => rfl
  | cons e t ih =>
      simp only [applyStatedPrefs, List.foldl_cons] at ih ⊢
      rw [ih]
      rw [findPref_updateChannelPreference]
      exact if_neg (fun hc => h hc.1)

theorem findPref_applyStatedPrefs_not_listed (i : String) (ps : List ChannelPreferenceInfo)
    (db : DB) (id q : String) (h : ∀ e ∈ ps, e.protocol ≠ q) :
    findPref (applyStatedPrefs i ps db).prefs id q = findPref db.prefs id q := by
  induction ps generalizing db with
  | nil => rfl
  | cons e t ih =>
      have he : e.protocol ≠ q := h e (List.mem_cons_self e t)
      simp only [applyStatedPrefs, List.foldl_cons] at ih ⊢
      rw [ih _ (fun b hb => h b (List.mem_cons_of_mem e hb))]
      rw [findPref_updateChannelPreference]
      exact if_neg (fun hc => he (hc.2.symm))

theorem applyStatedPrefs_lastAck_reset (i : String) (ps : List ChannelPreferenceInfo)
    (db : DB) (q : String)
    (h : (∃ e ∈ ps, e.protocol = q) ∨
      (findPref db.prefs i q).map (fun r => (r.lastAckAt, r.avgLatencyMs)) =
        some (none, none)) :
    (findPref (applyStatedPrefs i ps db).prefs i q).map
      (fun r => (r.lastAckAt, r.avgLatencyMs)) = some (none, none) := by
  induction ps generalizing db with
  | nil =>
      rcases h with ⟨e, he, _⟩ | hdone
      · exact absurd he (List.not_mem_nil e)
      · exact hdone
  | cons e t ih =>
      simp only [applyStatedPrefs, List.foldl_cons] at ih ⊢
      refine ih _ ?_
      by_cases hq : e.protocol = q
      · right
        rw [findPref_updateChannelPreference, if_pos ⟨rfl, hq.symm⟩]
        rfl
      · rcases h with ⟨e2, he2, hpe2⟩ | hdone
        · rcases List.mem_cons.mp he2 with hEq | hmem
          · exact absurd (hEq ▸ hpe2) hq
          · left
            exact ⟨e2, hmem, hpe2⟩
        · right
          rw [findPref_updateChannelPreference, if_neg (fun hc => hq hc.2.symm)]
          exact hdone

/-! ## Characterization of the protocol-aggregate upsert -/

theorem perfUpdRow_protocol (acked : Bool) (l : Option Int) (now : Int) (r : PerfRow) :
    (perfUpdRow acked l now r).protocol = r.protocol := rfl

theorem findPerf_updateProtocolPerformance (db : DB) (protocol : String) (acked : Bool)
    (latencyMs : Option Int) (now : Int) (id : String) :
    findPerf (updateProtocolPerformance db protocol acked latencyMs now).perf id =
      if id = protocol then
        some (match findPerf db.perf protocol with
              | none => perfInsRow protocol acked (jsOrNullI latencyMs) now
              | some r => perfUpdRow acked (jsOrNullI latencyMs) now r)
      else findPerf db.perf id := by
  unfold updateProtocolPerformance findPerf
  by_cases hs : (List.find? (fun r => r.protocol = protocol) db.perf).isSome = true
  · rw [if_pos hs]
    obtain ⟨r0, hr0⟩ := Option.isSome_iff_exists.mp hs
    have hfmap : (db.perf.map (fun r =>
          if r.protocol = protocol then perfUpdRow acked (jsOrNullI latencyMs) now r else r)).find?
        (fun r => r.protocol = id) =
        Option.map (fun r =>
          if r.protocol = protocol then perfUpdRow acked (jsOrNullI latencyMs) now r else r)
          (db.perf.find? (fun r => r.protocol = id)) := by
      refine find?_map_self db.perf _ _ (fun r => ?_)
      by_cases hrp : r.protocol = protocol
      · rw [if_pos hrp]
        rfl
      · rw [if_neg hrp]
    rw [hfmap]
    by_cases hk : id = protocol
    · rw [if_pos hk, hk, hr0]
      have hp : r0.protocol = protocol := by
        have := List.find?_some hr0
        simpa using this
      simp only [Option.map_some']
      rw [if_pos hp]
    · rw [if_neg hk]
      cases hfind : db.perf.find? (fun r => r.protocol = id) with
      | none => rfl
      | some r1 =>
          have hp1 : r1.protocol = id := by
            have := List.find?_some hfind
            simpa using this
          simp only [Option.map_some']
          rw [if_neg (fun hc => hk (by rw [← hp1]; exact hc))]
  · rw [if_neg hs]
    have hnone : db.perf.find? (fun r => r.protocol = protocol) = none := by
      cases hf : db.perf.find? (fun r => r.protocol = protocol) with
      | none => rfl
      | some r => exact absurd (by rw [hf]; rfl) hs
    rw [List.find?_append]
    by_cases hk : id = protocol
    · have hnone2 : db.perf.find? (fun r => r.protocol = id) = none := by
        rw [hk]; exact hnone
      rw [if_pos hk, hnone2, hnone]
      simp only [Option.none_or]
      have hins : (decide ((perfInsRow protocol acked (jsOrNullI latencyMs) now).protocol = id)) = true := by
        simp [perfInsRow, hk.symm]
      exact List.find?_cons_of_pos _ hins
    · rw [if_neg hk]
      have hins : ¬ (decide ((perfInsRow protocol acked (jsOrNullI latencyMs) now).protocol = id)) = true := by
        simp [perfInsRow]
        exact fun hEq => hk (hEq ▸ rfl)
      have hsing : List.find? (fun r => r.protocol = id)
          [perfInsRow protocol acked (jsOrNullI latencyMs) now] =
          List.find? (fun r => r.protocol = id) [] :=
        List.find?_cons_of_neg _ hins
      rw [hsing]
      simp

/-! ## Step lemmas for the retry loop -/

theorem retryGo_ok {α : Type} (op : Nat → Except DbError α) (jitter : Nat → ℚ) (delayMs : ℚ)
    (maxRetries i fuel : Nat) (last : Option DbError) (delays : List ℚ) (v : α)
    (h : op i = .ok v) :
    retryGo op jitter delayMs maxRetries i (fuel + 1) last delays = (.ok v, delays) := by
  simp [retryGo, h]

theorem retryGo_stop {α : Type} (op : Nat → Except DbError α) (jitter : Nat → ℚ) (delayMs : ℚ)
    (maxRetries i fuel : Nat) (last : Option DbError) (delays : List ℚ) (e : DbError)
    (h : op i = .error e) (hstop : ¬ (e = .busy ∧ i < maxRetries - 1)) :
    retryGo op jitter delayMs maxRetries i (fuel + 1) last delays = (.error e, delays) := by
  simp [retryGo, h, hstop]

theorem retryGo_busy {α : Type} (op : Nat → Except DbError α) (jitter : Nat → ℚ) (delayMs : ℚ)
    (maxRetries i fuel : Nat) (last : Option DbError) (delays : List ℚ)
    (h : op i = .error .busy) (hlt : i < maxRetries - 1) :
    retryGo op jitter delayMs maxRetries i (fuel + 1) last delays =
      retryGo op jitter delayMs maxRetries (i + 1) fuel (some .busy)
        (delays ++ [retryDelay delayMs jitter i]) := by
  simp [retryGo, h, hlt]

theorem saveMessageReceipt_receipts (db : DB) (r : ReceiptArg) :
    (saveMessageReceipt db r).receipts = db.receipts ++
      [{ messageUuid := r.messageUuid, protocol := r.protocol, server := jsOrNullS r.server
         receivedAt := r.receivedAt, latencyMs := r.latencyMs }] := rfl

theorem processArrivals_seen_mem (env : Env) (u : String) (arrs : List Arrival)
    (st : CBState) (h : u ∈ st.seen ∨ countArrivals arrs u ≠ 0) :
    u ∈ (processArrivals env st arrs).seen := by
  induction arrs generalizing st with
  | nil =>
      rcases h with h | h
      · simpa [processArrivals] using h
      · simp [countArrivals] at h
  | cons a t ih =>
      rw [processArrivals_cons]
      set st1 := handleIncomingMessage env st a.msg a.protocol a.server a.now a.ackUuid with hst1
      rcases h with h | h
      · exact ih st1 (Or.inl (by
          rw [hst1, seen_handleIncoming]
          split
          · exact h
          · exact List.mem_cons_of_mem _ h))
      · by_cases hmu : a.msg.uuid = u
        · refine ih st1 (Or.inl ?_)
          rw [hst1, seen_handleIncoming]
          split
          · rename_i hmm
            exact hmu ▸ hmm
          · exact hmu ▸ List.mem_cons_self _ _
        · refine ih st1 (Or.inr ?_)
          rw [countArrivals_cons, if_neg hmu] at h
          simpa using h

/-! ## Concrete data for witnesses and counterexamples -/

/-- A small concrete broadcaster environment: two initialized transports. -/
def wEnv : Env :=
  { myMagnetLink := "magnet:?me"
    transports := [⟨"nostr", true, 5⟩, ⟨"MQTT", true, 9⟩]
    xmtpOk := true
    wakuOk := false }

/-- A concrete plain chat message. -/
def wMsg : Message :=
  { uuid := "u1", content := "hi", timestamp := 10, fromMagnetLink := "alice", body := .plain }

/-- A second message with the same uuid but different sender, type and
content. -/
def wMsg2 : Message :=
  { uuid := "u1", content := "ALTERED", timestamp := 12, fromMagnetLink := "mallory"
    body := .ack "z" "nostr" none }

/-- A concrete acknowledgment whose receivedVia names nostr. -/
def wAck : Message :=
  { uuid := "u9", content := "ACK: u1", timestamp := 10, fromMagnetLink := "alice"
    body := .ack "u1" "nostr" none }

/-- First arrival of `wMsg`. -/
def wArr1 : Arrival := ⟨wMsg, "nostr", some "wss://relay", 15, "ackA"⟩

/-- An unrelated arrival interleaved between the two copies of `wMsg`. -/
def wArrOther : Arrival :=
  ⟨{ uuid := "u2", content := "x", timestamp := 11, fromMagnetLink := "bob", body := .plain },
   "IROH", none, 17, "ackC"⟩

/-- Second arrival carrying the uuid of `wMsg` on another transport. -/
def wArr2 : Arrival :=
  ⟨{ wMsg with content := "changed", fromMagnetLink := "mallory" }, "MQTT", none, 20, "ackB"⟩

/-- A three-arrival interleaving with two arrivals of uuid u1. -/
def wArrs : List Arrival := [wArr1, wArrOther, wArr2]

/-- A magnet link missing the required ed25519pub parameter. -/
def wBadLink : String := "magnet:?xt=urn:identity:v1&secp256k1pub=04ab&eth=0x12"

/-! ## Claims -/

/-- C1: for every uuid u, after any interleaving of k arrivals (on any
transports) of deserializable messages carrying uuid u, the evidence store
contains exactly one Message row with uuid u and exactly k Receipt rows with
message_uuid u; every arrival after the first causes a Receipt insert only
(no Message insert, no handler invocation, no auto-acknowledgment: the state
changes only by the appended receipt row).  The freshness hypothesis states
that the uuids minted for auto-acknowledgments differ from u. -/
theorem C1_dedup_store_invariant (env : Env) (st0 : CBState) (arrs : List Arrival)
    (u : String) (hseen : u ∉ st0.seen) (hm0 : countMsgRows st0.db u = 0)
    (hr0 : countReceiptRows st0.db u = 0) (hfresh : ∀ a ∈ arrs, a.ackUuid ≠ u)
    (hk : countArrivals arrs u ≠ 0) :
    (countMsgRows (processArrivals env st0 arrs).db u = 1 ∧
     countReceiptRows (processArrivals env st0 arrs).db u = countArrivals arrs u) ∧
    (∀ pre post : List Arrival, arrs = pre ++ post → countArrivals pre u ≠ 0 →
       u ∈ (processArrivals env st0 pre).seen) ∧
    (∀ (st : CBState) (m : Message) (p : String) (s : Option String) (now : Int)
       (au : String), m.uuid ∈ st.seen →
       handleIncomingMessage env st m p s now au =
         { st with db := { st.db with receipts := st.db.receipts ++
             [{ messageUuid := m.uuid, protocol := p, server := jsOrNullS s,
                receivedAt := now, latencyMs := now - m.timestamp }] } }) := by
  refine ⟨processArrivals_fresh env u arrs st0 hseen hm0 hr0 hfresh hk, ?_, ?_⟩
  · intro pre post hsplit hpre
    exact processArrivals_seen_mem env u pre st0 (Or.inr hpre)
  · intro st m p s now au h
    rw [handleIncoming_dup env st m p s now au h]
    rfl

/-- Witness for C1 at a concrete three-arrival interleaving carrying uuid u1
twice. -/
theorem C1_dedup_store_invariant_witness :
    (("u1" ∉ CBState.init.seen) ∧ countMsgRows CBState.init.db "u1" = 0 ∧
      countReceiptRows CBState.init.db "u1" = 0 ∧
      (∀ a ∈ wArrs, a.ackUuid ≠ "u1") ∧ countArrivals wArrs "u1" ≠ 0) ∧
    (countMsgRows (processArrivals wEnv CBState.init wArrs).db "u1" = 1 ∧
      countReceiptRows (processArrivals wEnv CBState.init wArrs).db "u1" =
        countArrivals wArrs "u1") :=
  ⟨⟨by decide, by decide, by decide, by decide, by decide⟩,
   (C1_dedup_store_invariant wEnv CBState.init wArrs "u1" (by decide) (by decide)
     (by decide) (by decide) (by decide)).1⟩

/-- C10: deduplication keys on the message uuid alone: a second inbound
message carrying an already-seen uuid but arbitrary (possibly different)
sender, type and content is treated as a duplicate: the only state change is
the appended Receipt row; the differing content is never stored, never
dispatched to handlers, and never acknowledged. -/
theorem C10_dedup_on_uuid_alone (env : Env) (st0 : CBState) (m1 m2 : Message)
    (p1 p2 : String) (s1 s2 : Option String) (n1 n2 : Int) (a1 a2 : String)
    (huuid : m2.uuid = m1.uuid) :
    handleIncomingMessage env (handleIncomingMessage env st0 m1 p1 s1 n1 a1) m2 p2 s2 n2 a2 =
      { handleIncomingMessage env st0 m1 p1 s1 n1 a1 with
        db := { (handleIncomingMessage env st0 m1 p1 s1 n1 a1).db with
          receipts := (handleIncomingMessage env st0 m1 p1 s1 n1 a1).db.receipts ++
            [{ messageUuid := m2.uuid, protocol := p2, server := jsOrNullS s2,
               receivedAt := n2, latencyMs := n2 - m2.timestamp }] } } := by
  have hmem : m2.uuid ∈ (handleIncomingMessage env st0 m1 p1 s1 n1 a1).seen := by
    rw [huuid, seen_handleIncoming]
    split
    · assumption
    · exact List.mem_cons_self _ _
  rw [handleIncoming_dup env _ m2 p2 s2 n2 a2 hmem]
  rfl

/-- Witness for C10: the second copy of uuid u1 differs in sender, type and
content, and still only a receipt row is appended. -/
theorem C10_dedup_on_uuid_alone_witness :
    wMsg2.uuid = wMsg.uuid ∧
    handleIncomingMessage wEnv
        (handleIncomingMessage wEnv CBState.init wMsg "nostr" (some "wss://relay") 15 "ackA")
        wMsg2 "MQTT" none 20 "ackB" =
      { handleIncomingMessage wEnv CBState.init wMsg "nostr" (some "wss://relay") 15 "ackA" with
        db := { (handleIncomingMessage wEnv CBState.init wMsg "nostr" (some "wss://relay") 15 "ackA").db with
          receipts := (handleIncomingMessage wEnv CBState.init wMsg "nostr" (some "wss://relay") 15 "ackA").db.receipts ++
            [{ messageUuid := wMsg2.uuid, protocol := "MQTT", server := jsOrNullS none,
               receivedAt := 20, latencyMs := 20 - wMsg2.timestamp }] } } :=
  ⟨rfl, C10_dedup_on_uuid_alone wEnv CBState.init wMsg wMsg2 "nostr" "MQTT"
    (some "wss://relay") none 15 20 "ackA" "ackB" rfl⟩

/-- C6 (code divergence): on a duplicate arrival the pipeline of the given
ChatBroadcaster records a Receipt row and nothing else: no event of any kind
is dispatched (the handler-notification trace, the acknowledgment traces and
the message table are unchanged), and the class offers no OnReceipt handler
surface.  Evaluated at the concrete failing input: the second arrival of
uuid u1. -/
theorem C6_no_duplicate_receipt_event :
    (handleIncomingMessage wEnv
        (handleIncomingMessage wEnv CBState.init wMsg "nostr" (some "wss://relay") 15 "ackA")
        wMsg "MQTT" none 20 "ackB").events =
      (handleIncomingMessage wEnv CBState.init wMsg "nostr" (some "wss://relay") 15 "ackA").events ∧
    (handleIncomingMessage wEnv
        (handleIncomingMessage wEnv CBState.init wMsg "nostr" (some "wss://relay") 15 "ackA")
        wMsg "MQTT" none 20 "ackB").ackCalls =
      (handleIncomingMessage wEnv CBState.init wMsg "nostr" (some "wss://relay") 15 "ackA").ackCalls ∧
    (handleIncomingMessage wEnv
        (handleIncomingMessage wEnv CBState.init wMsg "nostr" (some "wss://relay") 15 "ackA")
        wMsg "MQTT" none 20 "ackB").driverSends =
      (handleIncomingMessage wEnv CBState.init wMsg "nostr" (some "wss://relay") 15 "ackA").driverSends ∧
    (handleIncomingMessage wEnv
        (handleIncomingMessage wEnv CBState.init wMsg "nostr" (some "wss://relay") 15 "ackA")
        wMsg "MQTT" none 20 "ackB").db.messages =
      (handleIncomingMessage wEnv CBState.init wMsg "nostr" (some "wss://relay") 15 "ackA").db.messages ∧
    (handleIncomingMessage wEnv
        (handleIncomingMessage wEnv CBState.init wMsg "nostr" (some "wss://relay") 15 "ackA")
        wMsg "MQTT" none 20 "ackB").db.receipts =
      (handleIncomingMessage wEnv CBState.init wMsg "nostr" (some "wss://relay") 15 "ackA").db.receipts ++
        [{ messageUuid := "u1", protocol := "MQTT", server := none,
           receivedAt := 20, latencyMs := 10 }] := by
  decide

/-- C2: an auto-acknowledgment is issued iff the arrival is a non-ack seen
for the first time; exactly one acknowledgment is handed to the broadcaster
per first-seen non-ack message and its ackOfUuid equals the message uuid; it
is broadcast over all initialized transports (not only the transport of
arrival) when the recipient magnet decodes; a failing broadcast (the decode
failure is the only throwing path) is caught and the inbound pipeline still
records, receipts and dispatches the message; an acknowledgment arrival
never generates a further acknowledgment. -/
theorem C2_auto_ack_exactly_once (env : Env) (st : CBState) (m : Message) (p : String)
    (s : Option String) (now : Int) (au : String) :
    (m.uuid ∈ st.seen →
      (handleIncomingMessage env st m p s now au).ackCalls = st.ackCalls ∧
      (handleIncomingMessage env st m p s now au).driverSends = st.driverSends) ∧
    (isAck m = true →
      (handleIncomingMessage env st m p s now au).ackCalls = st.ackCalls ∧
      (handleIncomingMessage env st m p s now au).driverSends = st.driverSends) ∧
    (¬ m.uuid ∈ st.seen → isAck m = false →
      (handleIncomingMessage env st m p s now au).ackCalls =
        st.ackCalls ++ [ackOf env m p au now] ∧
      (ackOf env m p au now).body =
        .ack m.uuid p (some (myPreferences env.xmtpOk env.wakuOk)) ∧
      ((decodeIdentity m.fromMagnetLink).isSome = true →
        (handleIncomingMessage env st m p s now au).driverSends =
          st.driverSends ++ env.transports.map
            (fun t => ⟨t.name, m.fromMagnetLink, serializeMessage (ackOf env m p au now)⟩)) ∧
      ((decodeIdentity m.fromMagnetLink).isSome = false →
        (handleIncomingMessage env st m p s now au).driverSends = st.driverSends ∧
        (handleIncomingMessage env st m p s now au).seen = m.uuid :: st.seen ∧
        (handleIncomingMessage env st m p s now au).events = st.events ++ [(m, p)] ∧
        (handleIncomingMessage env st m p s now au).db.receipts =
          st.db.receipts ++
            [{ messageUuid := m.uuid, protocol := p, server := jsOrNullS s,
               receivedAt := now, latencyMs := now - m.timestamp }])) := by
  refine ⟨?_, ?_, ?_⟩
  · intro h
    rw [handleIncoming_dup env st m p s now au h]
    exact ⟨rfl, rfl⟩
  · intro hAck
    by_cases h : m.uuid ∈ st.seen
    · rw [handleIncoming_dup env st m p s now au h]
      exact ⟨rfl, rfl⟩
    · cases hb : m.body with
      | plain => rw [isAck, hb] at hAck; exact absurd hAck (by simp)
      | ack ao rv cps =>
          rw [handleIncoming_new_ack env st m p s now au ao rv cps h hb]
          exact ⟨rfl, rfl⟩
  · intro h hplain
    cases hb : m.body with
    | ack ao rv cps => rw [isAck, hb] at hplain; exact absurd hplain (by simp)
    | plain =>
        rw [handleIncoming_new_plain env st m p s now au h hb]
        refine ⟨rfl, rfl, ?_, ?_⟩
        · intro hd
          rw [if_pos hd]
        · intro hd
          rw [if_neg (by rw [hd]; exact fun hc => Bool.false_ne_true hc)]
          refine ⟨by simp, rfl, rfl, ?_⟩
          rw [saveMessage_receipts, saveMessageReceipt_receipts, saveMessage_receipts]
          rfl

/-- Witness for C2: a first-seen non-ack arrival from a sender whose magnet
link does not decode: one acknowledgment with ackOfUuid u1 is issued and the
failing broadcast leaves the pipeline result intact. -/
theorem C2_auto_ack_exactly_once_witness :
    (¬ wMsg.uuid ∈ CBState.init.seen) ∧ isAck wMsg = false ∧
    (decodeIdentity wMsg.fromMagnetLink).isSome = false ∧
    (handleIncomingMessage wEnv CBState.init wMsg "nostr" (some "wss://relay") 15 "ackA").ackCalls =
      CBState.init.ackCalls ++ [ackOf wEnv wMsg "nostr" "ackA" 15] ∧
    (handleIncomingMessage wEnv CBState.init wMsg "nostr" (some "wss://relay") 15 "ackA").driverSends =
      CBState.init.driverSends :=
  ⟨by decide, by decide, by decide,
   ((C2_auto_ack_exactly_once wEnv CBState.init wMsg "nostr" (some "wss://relay") 15 "ackA").2.2
     (by decide) (by decide)).1,
   (((C2_auto_ack_exactly_once wEnv CBState.init wMsg "nostr" (some "wss://relay") 15 "ackA").2.2
     (by decide) (by decide)).2.2.2 (by decide)).1⟩

/-- A concrete acknowledgment in the shape this system generates: its
channelPreferences list (the five stated protocols) contains its own
receivedVia protocol. -/
def wAckFull : Message :=
  { uuid := "u8", content := "ACK: u1", timestamp := 10, fromMagnetLink := "alice"
    body := .ack "u1" "nostr" (some (myPreferences true false)) }

/-- Counterexample to C3: a first-seen acknowledgment whose receivedVia field
names nostr arrives on transport MQTT.  For an ack without stated
preferences, the row receiving isWorking=true, lastAckAt=now,
avgLatencyMs=now-timestamp, cannotUse=false is keyed (sender, "nostr") — the
receivedVia transport — and no row keyed (sender, "MQTT") — the transport of
arrival — exists.  For an ack in the shape this system generates (stated
preferences including receivedVia), not even the (sender, receivedVia) row
ends with the claimed values: the stated-preferences loop resets its
lastAckAt and avgLatencyMs to null, and the (sender, "MQTT") row that the
loop creates carries null lastAckAt as well, never lastAckAt=now. -/
theorem C3_counterexample :
    findPref (handleIncomingMessage wEnv CBState.init wAck "MQTT" none 25 "ackZ").db.prefs
        "alice" "MQTT" = none ∧
    findPref (handleIncomingMessage wEnv CBState.init wAck "MQTT" none 25 "ackZ").db.prefs
        "alice" "nostr" =
      some { identity := "alice", protocol := "nostr", isWorking := true,
             lastAckAt := some 25, avgLatencyMs := some 15,
             preferenceOrder := none, cannotUse := false } ∧
    (findPref (handleIncomingMessage wEnv CBState.init wAckFull "MQTT" none 25 "ackY").db.prefs
        "alice" "MQTT").map (fun r => r.lastAckAt) = some none ∧
    (findPref (handleIncomingMessage wEnv CBState.init wAckFull "MQTT" none 25 "ackY").db.prefs
        "alice" "nostr").map (fun r => (r.lastAckAt, r.avgLatencyMs)) =
      some (none, none) := by
  decide

/-- C3 (amended): for every first-seen inbound acknowledgment (sender s,
receivedVia rv, optional stated channelPreferences list L): (i) the
transport on which the ack arrived plays no role in the channel-preference
updates — the resulting preference table is identical for any arrival
transport; (ii) rows of identities other than s are never touched; (iii) the
update carrying isWorking=true, lastAckAt=now, avgLatencyMs=now-timestamp,
cannotUse=false targets the row keyed (s, rv) — the transport named inside
the acknowledgment — and when L does not mention rv (in particular when L is
absent) that row ends with exactly those values, 0 being stored as null by
the JavaScript marshalling (hence the nonzero side conditions); (iv) when L
does mention rv — as every acknowledgment this system generates does — the
subsequent stated-preferences upsert resets that row's lastAckAt and
avgLatencyMs to null. -/
theorem C3_amended_ack_pref_updates (env : Env) (st : CBState) (m : Message)
    (p1 p2 : String) (s1 s2 : Option String) (now : Int) (au : String)
    (ao rv : String) (cps : Option (List ChannelPreferenceInfo))
    (h : ¬ m.uuid ∈ st.seen) (hb : m.body = .ack ao rv cps)
    (hnow : now ≠ 0) (hlat : now - m.timestamp ≠ 0) :
    ((handleIncomingMessage env st m p1 s1 now au).db.prefs =
      (handleIncomingMessage env st m p2 s2 now au).db.prefs) ∧
    (∀ id q, id ≠ m.fromMagnetLink →
      findPref (handleIncomingMessage env st m p1 s1 now au).db.prefs id q =
        findPref st.db.prefs id q) ∧
    ((∀ prefs, cps = some prefs → ∀ e ∈ prefs, e.protocol ≠ rv) →
      findPref (handleIncomingMessage env st m p1 s1 now au).db.prefs m.fromMagnetLink rv =
        some { identity := m.fromMagnetLink
               protocol := rv
               isWorking := true
               lastAckAt := some now
               avgLatencyMs := some (now - m.timestamp)
               preferenceOrder := (findPref st.db.prefs m.fromMagnetLink rv).bind
                 (fun r => r.preferenceOrder)
               cannotUse := false }) ∧
    (∀ prefs, cps = some prefs → (∃ e ∈ prefs, e.protocol = rv) →
      (findPref (handleIncomingMessage env st m p1 s1 now au).db.prefs m.fromMagnetLink rv).map
        (fun r => (r.lastAckAt, r.avgLatencyMs)) = some (none, none)) := by
  have hdb3 : ∀ (p : String) (s : Option String),
      (saveMessageReceipt (saveMessage st.db (incomingSaveArg env m p now))
        (receiptArgOf m p s now)).prefs = st.db.prefs := by
    intro p s
    rw [saveMessageReceipt_prefs, saveMessage_prefs]
  have hupd : ∀ (p : String) (s : Option String) (id q : String),
      findPref (updateChannelPreference
          (saveMessageReceipt (saveMessage st.db (incomingSaveArg env m p now))
            (receiptArgOf m p s now)) (ackPrefArg m rv now)).prefs id q =
        (if id = m.fromMagnetLink ∧ q = rv then
          some { identity := m.fromMagnetLink
                 protocol := rv
                 isWorking := true
                 lastAckAt := jsOrNullI (some now)
                 avgLatencyMs := jsOrNullI (some (now - m.timestamp))
                 preferenceOrder := ((jsOrNullI none).orElse
                   (fun _ => (findPref st.db.prefs m.fromMagnetLink rv).bind
                      (fun r => r.preferenceOrder)))
                 cannotUse := false }
        else findPref st.db.prefs id q) := by
    intro p s id q
    rw [show (updateChannelPreference
        (saveMessageReceipt (saveMessage st.db (incomingSaveArg env m p now))
          (receiptArgOf m p s now)) (ackPrefArg m rv now)).prefs =
        (updateChannelPreference
          { (saveMessageReceipt (saveMessage st.db (incomingSaveArg env m p now))
              (receiptArgOf m p s now)) with prefs := st.db.prefs }
          (ackPrefArg m rv now)).prefs from by rw [← hdb3 p s]]
    rw [findPref_updateChannelPreference]
    rfl
  refine ⟨?_, ?_, ?_, ?_⟩
  · rw [handleIncoming_new_ack env st m p1 s1 now au ao rv cps h hb,
      handleIncoming_new_ack env st m p2 s2 now au ao rv cps h hb]
    cases cps with
    | none =>
        exact updateChannelPreference_prefs_congr _ _ _ ((hdb3 p1 s1).trans (hdb3 p2 s2).symm)
    | some prefs =>
        exact applyStatedPrefs_prefs_congr _ _ _ _
          (updateChannelPreference_prefs_congr _ _ _ ((hdb3 p1 s1).trans (hdb3 p2 s2).symm))
  · intro id q hid
    rw [handleIncoming_new_ack env st m p1 s1 now au ao rv cps h hb]
    cases cps with
    | none =>
        rw [hupd p1 s1 id q]
        exact if_neg (fun hc => hid hc.1)
    | some prefs =>
        rw [findPref_applyStatedPrefs_ne_ident _ _ _ _ _ hid, hupd p1 s1 id q]
        exact if_neg (fun hc => hid hc.1)
  · intro hnl
    rw [handleIncoming_new_ack env st m p1 s1 now au ao rv cps h hb]
    have hval : (if (m.fromMagnetLink = m.fromMagnetLink ∧ rv = rv) then
        some { identity := m.fromMagnetLink
               protocol := rv
               isWorking := true
               lastAckAt := jsOrNullI (some now)
               avgLatencyMs := jsOrNullI (some (now - m.timestamp))
               preferenceOrder := ((jsOrNullI none).orElse
                 (fun _ => (findPref st.db.prefs m.fromMagnetLink rv).bind
                    (fun r => r.preferenceOrder)))
               cannotUse := false }
      else findPref st.db.prefs m.fromMagnetLink rv) =
        some { identity := m.fromMagnetLink
               protocol := rv
               isWorking := true
               lastAckAt := some now
               avgLatencyMs := some (now - m.timestamp)
               preferenceOrder := (findPref st.db.prefs m.fromMagnetLink rv).bind
                 (fun r => r.preferenceOrder)
               cannotUse := false } := by
      rw [if_pos ⟨rfl, rfl⟩]
      simp only [jsOrNullI]
      rw [if_neg hnow, if_neg hlat]
      rfl
    cases cps with
    | none =>
        rw [hupd p1 s1 m.fromMagnetLink rv]
        exact hval
    | some prefs =>
        rw [findPref_applyStatedPrefs_not_listed _ _ _ _ _ (hnl prefs rfl),
          hupd p1 s1 m.fromMagnetLink rv]
        exact hval
  · intro prefs hcps hex
    cases hcps
    rw [handleIncoming_new_ack env st m p1 s1 now au ao rv (some prefs) h hb]
    exact applyStatedPrefs_lastAck_reset m.fromMagnetLink prefs _ rv (Or.inl hex)

/-- Witness for C3 (amended) at the system-shaped acknowledgment: the
stated-preferences list contains receivedVia, so the (sender, receivedVia)
row ends with null lastAckAt and avgLatencyMs. -/
theorem C3_amended_ack_pref_updates_witness :
    ((¬ wAckFull.uuid ∈ CBState.init.seen) ∧
      wAckFull.body = .ack "u1" "nostr" (some (myPreferences true false)) ∧
      (25 : Int) ≠ 0 ∧ (25 : Int) - wAckFull.timestamp ≠ 0 ∧
      (∃ e ∈ myPreferences true false, e.protocol = "nostr")) ∧
    (findPref (handleIncomingMessage wEnv CBState.init wAckFull "MQTT" none 25 "ackY").db.prefs
        wAckFull.fromMagnetLink "nostr").map (fun r => (r.lastAckAt, r.avgLatencyMs)) =
      some (none, none) :=
  ⟨⟨by decide, rfl, by decide, by decide, by decide⟩,
   (C3_amended_ack_pref_updates wEnv CBState.init wAckFull "MQTT" "IROH" none none 25 "ackY"
      "u1" "nostr" (some (myPreferences true false)) (by decide) rfl (by decide)
      (by decide)).2.2.2 (myPreferences true false) rfl (by decide)⟩

/-- Counterexample to C4: sending to a magnet link missing ed25519pub raises
the single invalid-recipient error before any driver send is attempted, but
the evidence store is NOT left unchanged: the outbound Message row was
already inserted before the recipient was validated. -/
theorem C4_counterexample :
    (sendMessage wEnv CBState.init wBadLink "hello" "u77" 50).2 =
      .error "Invalid recipient magnet link" ∧
    (sendMessage wEnv CBState.init wBadLink "hello" "u77" 50).1.driverSends = [] ∧
    (sendMessage wEnv CBState.init wBadLink "hello" "u77" 50).1.db.messages ≠ [] := by
  decide

/-- C4 (amended): for every recipient magnet link that fails to decode,
sendMessage raises a single invalid-recipient error before any driver send is
attempted and before any aggregate update; however the outbound Message row
has already been saved, so the call leaves the store changed by exactly that
one row (receipts, preferences and aggregates untouched). -/
theorem C4_amended_invalid_recipient (env : Env) (st : CBState)
    (link content uuid : String) (now : Int)
    (hdec : decodeIdentity link = none) (hfresh : countMsgRows st.db uuid = 0) :
    sendMessage env st link content uuid now =
      ({ st with db := { st.db with messages := st.db.messages ++
          [{ uuid := uuid, fromIdentity := env.myMagnetLink, toIdentity := link,
             content := content, timestamp := now, isAcknowledgment := false,
             firstReceivedProtocol := none, firstReceivedAt := none }] } },
       .error "Invalid recipient magnet link") := by
  have hna : ¬ (st.db.messages.any (fun r => r.uuid = uuid) = true) :=
    fun hc => ((countMsgRows_ne_zero_iff st.db uuid).mpr hc) hfresh
  unfold sendMessage broadcastStep
  rw [hdec]
  simp only []
  unfold saveMessage
  rw [if_neg hna]
  rfl

/-- Witness for C4 (amended) at the concrete magnet link missing
ed25519pub. -/
theorem C4_amended_invalid_recipient_witness :
    decodeIdentity wBadLink = none ∧ countMsgRows CBState.init.db "u77" = 0 ∧
    sendMessage wEnv CBState.init wBadLink "hello" "u77" 50 =
      ({ CBState.init with db := { CBState.init.db with messages :=
          CBState.init.db.messages ++
            [{ uuid := "u77", fromIdentity := wEnv.myMagnetLink, toIdentity := wBadLink,
               content := "hello", timestamp := 50, isAcknowledgment := false,
               firstReceivedProtocol := none, firstReceivedAt := none }] } },
       .error "Invalid recipient magnet link") :=
  ⟨by decide, by decide,
   C4_amended_invalid_recipient wEnv CBState.init wBadLink "hello" "u77" 50
     (by decide) (by decide)⟩

/-- Counterexample to C5: with no prior row and a supplied latency of 0, the
claim requires avgLatencyMs to become 0, but the JavaScript marshalling
`latencyMs || null` collapses the supplied 0 to null, so the row stores
null. -/
theorem C5_counterexample :
    (findPerf (updateProtocolPerformance DB.empty "nostr" true (some 0) 99).perf "nostr").map
        (fun r => r.avgLatencyMs) = some none ∧
    some (none : Option Int) ≠ some (some (0 : Int)) := by
  decide

/-- C5 (amended): every call to the protocol-aggregate update increments
totalSent by exactly 1 (insert initializes it to 1) and totalAcked by 1 when
acked; a supplied NONZERO latency L replaces a null prior by L and a non-null
prior by (prior + L) with SQLite truncating integer division by 2, which
equals the floor ⌊(prior + L) / 2⌋ for the non-negative values involved; when
no latency is supplied — or when the supplied latency is 0, which the
`latencyMs || null` marshalling collapses to null — avgLatencyMs is
unchanged; rows of other protocols are untouched. -/
theorem C5_amended_aggregate_update (db : DB) (protocol : String) (acked : Bool)
    (latencyMs : Option Int) (now : Int) :
    ((findPerf (updateProtocolPerformance db protocol acked latencyMs now).perf protocol).map
        (fun r => r.totalSent) =
      some ((((findPerf db.perf protocol).map (fun r => r.totalSent)).getD 0) + 1)) ∧
    ((findPerf (updateProtocolPerformance db protocol acked latencyMs now).perf protocol).map
        (fun r => r.totalAcked) =
      some ((((findPerf db.perf protocol).map (fun r => r.totalAcked)).getD 0) +
        (if acked then 1 else 0))) ∧
    (jsOrNullI latencyMs = none →
      (findPerf (updateProtocolPerformance db protocol acked latencyMs now).perf protocol).map
          (fun r => r.avgLatencyMs) =
        some ((findPerf db.perf protocol).bind (fun r => r.avgLatencyMs))) ∧
    (∀ v : Int, latencyMs = some v → v ≠ 0 →
      (findPerf db.perf protocol).bind (fun r => r.avgLatencyMs) = none →
      (findPerf (updateProtocolPerformance db protocol acked latencyMs now).perf protocol).map
          (fun r => r.avgLatencyMs) = some (some v)) ∧
    (∀ v prior : Int, latencyMs = some v → v ≠ 0 →
      (findPerf db.perf protocol).bind (fun r => r.avgLatencyMs) = some prior →
      ((findPerf (updateProtocolPerformance db protocol acked latencyMs now).perf protocol).map
          (fun r => r.avgLatencyMs) = some (some (Int.tdiv (prior + v) 2)) ∧
        (0 ≤ prior → 0 ≤ v → Int.tdiv (prior + v) 2 = (prior + v) / 2))) ∧
    (∀ q, q ≠ protocol →
      findPerf (updateProtocolPerformance db protocol acked latencyMs now).perf q =
        findPerf db.perf q) := by
  have hchar := findPerf_updateProtocolPerformance db protocol acked latencyMs now
  have hkey := hchar protocol
  rw [if_pos rfl] at hkey
  refine ⟨?_, ?_, ?_, ?_, ?_, ?_⟩
  · rw [hkey]
    cases hf : findPerf db.perf protocol <;> simp [hf, perfInsRow, perfUpdRow]
  · rw [hkey]
    cases hf : findPerf db.perf protocol <;> simp [hf, perfInsRow, perfUpdRow]
  · intro hnull
    rw [hkey]
    cases hf : findPerf db.perf protocol <;>
      simp [hf, perfInsRow, perfUpdRow, hnull]
  · intro v hv hvne hprior
    have hj : jsOrNullI latencyMs = some v := by
      rw [hv]
      simp [jsOrNullI, hvne]
    rw [hkey]
    cases hf : findPerf db.perf protocol with
    | none => simp [hf, perfInsRow, hj]
    | some r =>
        rw [hf] at hprior
        simp only [Option.some_bind] at hprior
        simp [hf, perfUpdRow, hj, hprior]
  · intro v prior hv hvne hprior
    have hj : jsOrNullI latencyMs = some v := by
      rw [hv]
      simp [jsOrNullI, hvne]
    cases hf : findPerf db.perf protocol with
    | none => rw [hf] at hprior; simp at hprior
    | some r =>
        rw [hf] at hprior
        simp only [Option.some_bind] at hprior
        constructor
        · rw [hkey]
          simp [hf, perfUpdRow, hj, hprior]
        · intro hp hv0
          exact Int.tdiv_eq_ediv (by positivity) (by norm_num)
  · intro q hq
    have := hchar q
    rw [if_neg hq] at this
    exact this

/-- Witness for C5 (amended): one call on an existing row with prior average
10 and supplied latency 5 yields average (10 + 5) / 2 = 7 and the increments. -/
theorem C5_amended_aggregate_update_witness :
    ((some 5 : Option Int) = some 5 ∧ (5 : Int) ≠ 0 ∧
      (findPerf (updateProtocolPerformance DB.empty "nostr" true (some 10) 99).perf "nostr").bind
        (fun r => r.avgLatencyMs) = some 10) ∧
    (findPerf (updateProtocolPerformance
        (updateProtocolPerformance DB.empty "nostr" true (some 10) 99)
        "nostr" false (some 5) 100).perf "nostr").map (fun r => r.avgLatencyMs) =
      some (some (Int.tdiv (10 + 5) 2)) :=
  ⟨⟨rfl, by decide, by decide⟩,
   ((C5_amended_aggregate_update (updateProtocolPerformance DB.empty "nostr" true (some 10) 99)
     "nostr" false (some 5) 100).2.2.2.2.1 5 10 rfl (by decide) (by decide)).1⟩

/-- C7: `executeWithRetry` (defaults: 5 attempts, base delay 100 ms) retries
only on the busy error: all five attempts busy propagates busy after exactly
the four backoff delays; a non-busy error at any attempt propagates
immediately after the delays already slept; a success at any attempt returns
it; the delay taken before retry i+1 is 100 * 2 ^ i plus the jitter, which
lies in [0, 50). -/
theorem C7_retry_exponential_backoff {α : Type} (op : Nat → Except DbError α)
    (jitter : Nat → ℚ) (hj : ∀ i, 0 ≤ jitter i ∧ jitter i < 50) :
    ((∀ j, j < 5 → op j = .error .busy) →
      executeWithRetry op jitter =
        (.error .busy, [retryDelay 100 jitter 0, retryDelay 100 jitter 1,
          retryDelay 100 jitter 2, retryDelay 100 jitter 3])) ∧
    (∀ i, i < 5 → (∀ j, j < i → op j = .error .busy) →
      ∀ s, op i = .error (.other s) →
        executeWithRetry op jitter =
          (.error (.other s), (List.range i).map (retryDelay 100 jitter))) ∧
    (∀ i, i < 5 → (∀ j, j < i → op j = .error .busy) →
      ∀ v, op i = .ok v →
        executeWithRetry op jitter = (.ok v, (List.range i).map (retryDelay 100 jitter))) ∧
    (∀ i, 100 * 2 ^ i ≤ retryDelay 100 jitter i ∧
      retryDelay 100 jitter i < 100 * 2 ^ i + 50) := by
  refine ⟨?_, ?_, ?_, ?_⟩
  · intro hb
    unfold executeWithRetry
    rw [show (5 : Nat) = 4 + 1 from rfl,
      retryGo_busy _ _ _ _ _ _ _ _ (hb 0 (by norm_num)) (by norm_num)]
    rw [show (4 : Nat) = 3 + 1 from rfl,
      retryGo_busy _ _ _ _ _ _ _ _ (hb 1 (by norm_num)) (by norm_num)]
    rw [show (3 : Nat) = 2 + 1 from rfl,
      retryGo_busy _ _ _ _ _ _ _ _ (hb 2 (by norm_num)) (by norm_num)]
    rw [show (2 : Nat) = 1 + 1 from rfl,
      retryGo_busy _ _ _ _ _ _ _ _ (hb 3 (by norm_num)) (by norm_num)]
    rw [show (1 : Nat) = 0 + 1 from rfl,
      retryGo_stop _ _ _ _ _ _ _ _ _ (hb 4 (by norm_num)) (by norm_num)]
    simp
  · intro i hi hpre s hop
    unfold executeWithRetry
    interval_cases i
    · rw [show (5 : Nat) = 4 + 1 from rfl,
        retryGo_stop _ _ _ _ _ _ _ _ _ hop (by simp)]
      simp
    · rw [show (5 : Nat) = 4 + 1 from rfl,
        retryGo_busy _ _ _ _ _ _ _ _ (hpre 0 (by norm_num)) (by norm_num)]
      rw [show (4 : Nat) = 3 + 1 from rfl,
        retryGo_stop _ _ _ _ _ _ _ _ _ hop (by simp)]
      simp [List.range_succ]
    · rw [show (5 : Nat) = 4 + 1 from rfl,
        retryGo_busy _ _ _ _ _ _ _ _ (hpre 0 (by norm_num)) (by norm_num)]
      rw [show (4 : Nat) = 3 + 1 from rfl,
        retryGo_busy _ _ _ _ _ _ _ _ (hpre 1 (by norm_num)) (by norm_num)]
      rw [show (3 : Nat) = 2 + 1 from rfl,
        retryGo_stop _ _ _ _ _ _ _ _ _ hop (by simp)]
      simp [List.range_succ]
    · rw [show (5 : Nat) = 4 + 1 from rfl,
        retryGo_busy _ _ _ _ _ _ _ _ (hpre 0 (by norm_num)) (by norm_num)]
      rw [show (4 : Nat) = 3 + 1 from rfl,
        retryGo_busy _ _ _ _ _ _ _ _ (hpre 1 (by norm_num)) (by norm_num)]
      rw [show (3 : Nat) = 2 + 1 from rfl,
        retryGo_busy _ _ _ _ _ _ _ _ (hpre 2 (by norm_num)) (by norm_num)]
      rw [show (2 : Nat) = 1 + 1 from rfl,
        retryGo_stop _ _ _ _ _ _ _ _ _ hop (by simp)]
      simp [List.range_succ]
    · rw [show (5 : Nat) = 4 + 1 from rfl,
        retryGo_busy _ _ _ _ _ _ _ _ (hpre 0 (by norm_num)) (by norm_num)]
      rw [show (4 : Nat) = 3 + 1 from rfl,
        retryGo_busy _ _ _ _ _ _ _ _ (hpre 1 (by norm_num)) (by norm_num)]
      rw [show (3 : Nat) = 2 + 1 from rfl,
        retryGo_busy _ _ _ _ _ _ _ _ (hpre 2 (by norm_num)) (by norm_num)]
      rw [show (2 : Nat) = 1 + 1 from rfl,
        retryGo_busy _ _ _ _ _ _ _ _ (hpre 3 (by norm_num)) (by norm_num)]
      rw [show (1 : Nat) = 0 + 1 from rfl,
        retryGo_stop _ _ _ _ _ _ _ _ _ hop (by simp)]
      simp [List.range_succ]
  · intro i hi hpre v hop
    unfold executeWithRetry
    interval_cases i
    · rw [show (5 : Nat) = 4 + 1 from rfl, retryGo_ok _ _ _ _ _ _ _ _ _ hop]
      simp
    · rw [show (5 : Nat) = 4 + 1 from rfl,
        retryGo_busy _ _ _ _ _ _ _ _ (hpre 0 (by norm_num)) (by norm_num)]
      rw [show (4 : Nat) = 3 + 1 from rfl, retryGo_ok _ _ _ _ _ _ _ _ _ hop]
      simp [List.range_succ]
    · rw [show (5 : Nat) = 4 + 1 from rfl,
        retryGo_busy _ _ _ _ _ _ _ _ (hpre 0 (by norm_num)) (by norm_num)]
      rw [show (4 : Nat) = 3 + 1 from rfl,
        retryGo_busy _ _ _ _ _ _ _ _ (hpre 1 (by norm_num)) (by norm_num)]
      rw [show (3 : Nat) = 2 + 1 from rfl, retryGo_ok _ _ _ _ _ _ _ _ _ hop]
      simp [List.range_succ]
    · rw [show (5 : Nat) = 4 + 1 from rfl,
        retryGo_busy _ _ _ _ _ _ _ _ (hpre 0 (by norm_num)) (by norm_num)]
      rw [show (4 : Nat) = 3 + 1 from rfl,
        retryGo_busy _ _ _ _ _ _ _ _ (hpre 1 (by norm_num)) (by norm_num)]
      rw [show (3 : Nat) = 2 + 1 from rfl,
        retryGo_busy _ _ _ _ _ _ _ _ (hpre 2 (by norm_num)) (by norm_num)]
      rw [show (2 : Nat) = 1 + 1 from rfl, retryGo_ok _ _ _ _ _ _ _ _ _ hop]
      simp [List.range_succ]
    · rw [show (5 : Nat) = 4 + 1 from rfl,
        retryGo_busy _ _ _ _ _ _ _ _ (hpre 0 (by norm_num)) (by norm_num)]
      rw [show (4 : Nat) = 3 + 1 from rfl,
        retryGo_busy _ _ _ _ _ _ _ _ (hpre 1 (by norm_num)) (by norm_num)]
      rw [show (3 : Nat) = 2 + 1 from rfl,
        retryGo_busy _ _ _ _ _ _ _ _ (hpre 2 (by norm_num)) (by norm_num)]
      rw [show (2 : Nat) = 1 + 1 from rfl,
        retryGo_busy _ _ _ _ _ _ _ _ (hpre 3 (by norm_num)) (by norm_num)]
      rw [show (1 : Nat) = 0 + 1 from rfl, retryGo_ok _ _ _ _ _ _ _ _ _ hop]
      simp [List.range_succ]
  · intro i
    have := hj i
    unfold retryDelay
    constructor
    · linarith [this.1]
    · linarith [this.2]

/-- Witness for C7: an operation that is busy twice and then succeeds
finishes with the two backoff delays. -/
theorem C7_retry_exponential_backoff_witness :
    ((∀ i, (0 : ℚ) ≤ (fun _ : Nat => (1 : ℚ)) i ∧ (fun _ : Nat => (1 : ℚ)) i < 50) ∧
      (2 : Nat) < 5 ∧
      (∀ j, j < 2 → (fun i => if i = 2 then (.ok 42 : Except DbError Nat)
        else .error .busy) j = .error .busy) ∧
      (fun i => if i = 2 then (.ok 42 : Except DbError Nat) else .error .busy) 2 = .ok 42) ∧
    executeWithRetry (fun i => if i = 2 then (.ok 42 : Except DbError Nat) else .error .busy)
        (fun _ => (1 : ℚ)) =
      (.ok 42, (List.range 2).map (retryDelay 100 (fun _ => (1 : ℚ)))) :=
  ⟨⟨fun _ => ⟨by norm_num, by norm_num⟩, by norm_num, by decide, rfl⟩,
   (C7_retry_exponential_backoff (fun i => if i = 2 then (.ok 42 : Except DbError Nat)
      else .error .busy) (fun _ => (1 : ℚ))
      (fun _ => ⟨by norm_num, by norm_num⟩)).2.2.1 2 (by norm_num) (by decide) 42 rfl⟩

theorem foldl_saveMessage_of_present (u : String) (ms : List MessageArg) (db : DB)
    (hall : ∀ a ∈ ms, a.uuid = u) (hpresent : countMsgRows db u ≠ 0) :
    ms.foldl saveMessage db = db := by
  induction ms generalizing db with
  | nil => rfl
  | cons a t ih =>
      have ha : a.uuid = u := hall a (List.mem_cons_self a t)
      rw [List.foldl_cons, saveMessage_of_present db a (by rw [ha]; exact hpresent)]
      exact ih db (fun b hb => hall b (List.mem_cons_of_mem a hb)) hpresent

/-- C8: SaveMessage is idempotent on uuid: a second insertion attempt with an
already-present uuid is a no-op on the store, and N invocations carrying the
same uuid from a store without that uuid leave exactly one Message row with
that uuid. -/
theorem C8_saveMessage_idempotent :
    (∀ (db : DB) (a : MessageArg), countMsgRows db a.uuid ≠ 0 → saveMessage db a = db) ∧
    (∀ (db : DB) (ms : List MessageArg) (u : String), ms ≠ [] →
      (∀ a ∈ ms, a.uuid = u) → countMsgRows db u = 0 →
      countMsgRows (ms.foldl saveMessage db) u = 1) := by
  refine ⟨saveMessage_of_present, ?_⟩
  intro db ms u hne hall h0
  cases ms with
  | nil => exact absurd rfl hne
  | cons a t =>
      have ha : a.uuid = u := hall a (List.mem_cons_self a t)
      rw [List.foldl_cons]
      have h1 : countMsgRows (saveMessage db a) u = 1 := by
        rw [← ha] at h0 ⊢
        exact countMsgRows_saveMessage_self db a h0
      rw [foldl_saveMessage_of_present u t (saveMessage db a)
        (fun b hb => hall b (List.mem_cons_of_mem a hb)) (by rw [h1]; omega)]
      exact h1

/-- The two save arguments of the C8 witness: same uuid, different
contents. -/
def wSaves : List MessageArg :=
  [{ uuid := "u1", fromIdentity := "a", toIdentity := "b", content := "x",
     timestamp := 1, isAcknowledgment := false },
   { uuid := "u1", fromIdentity := "c", toIdentity := "d", content := "y",
     timestamp := 2, isAcknowledgment := true }]

/-- Witness for C8: two saves with uuid u1 (differing contents) from the
empty store leave exactly one row. -/
theorem C8_saveMessage_idempotent_witness :
    (wSaves ≠ [] ∧ (∀ a ∈ wSaves, a.uuid = "u1") ∧ countMsgRows DB.empty "u1" = 0) ∧
    countMsgRows (wSaves.foldl saveMessage DB.empty) "u1" = 1 :=
  ⟨⟨by decide, by decide, by decide⟩,
   C8_saveMessage_idempotent.2 DB.empty wSaves "u1" (by decide) (by decide) (by decide)⟩

/-- A store with one learned channel-preference row for (alice, nostr). -/
def wPrefDb : DB :=
  { messages := [], receipts := [], perf := []
    prefs := [{ identity := "alice", protocol := "nostr", isWorking := true,
                lastAckAt := some 1, avgLatencyMs := some 7,
                preferenceOrder := some 2, cannotUse := false }] }

/-- An upsert argument supplying avgLatencyMs = 0. -/
def wPrefArg : ChannelPrefArg :=
  { identity := "alice", protocol := "nostr", isWorking := false, lastAckAt := some 5,
    avgLatencyMs := some 0, preferenceOrder := none, cannotUse := true }

/-- Counterexample to C9: an upsert supplying avgLatencyMs = 0 does not
overwrite the field with the supplied value 0: the `|| null` marshalling
stores null instead. -/
theorem C9_counterexample :
    wPrefArg.avgLatencyMs = some 0 ∧
    (findPref (updateChannelPreference wPrefDb wPrefArg).prefs "alice" "nostr").map
        (fun r => r.avgLatencyMs) = some none ∧
    some (none : Option Int) ≠ some (some (0 : Int)) := by
  decide

/-- C9 (amended): in the channel-preference upsert keyed on (identity,
protocol), preferenceOrder is the only field preserved from the existing row
— preserved when not supplied or supplied as 0 (the `|| null` marshalling);
isWorking and cannotUse are always overwritten with the supplied values;
lastAckAt and avgLatencyMs are overwritten with the marshalled supplied
values (null when absent or 0); rows of other keys are untouched; hence an
upsert driven by an ack's channelPreferences list (which supplies neither
lastAckAt nor avgLatencyMs) resets both learned fields to null. -/
theorem C9_amended_upsert_frame (db : DB) (p : ChannelPrefArg) :
    (findPref (updateChannelPreference db p).prefs p.identity p.protocol =
      some { identity := p.identity
             protocol := p.protocol
             isWorking := p.isWorking
             lastAckAt := jsOrNullI p.lastAckAt
             avgLatencyMs := jsOrNullI p.avgLatencyMs
             preferenceOrder := ((jsOrNullI p.preferenceOrder).orElse
               (fun _ => (findPref db.prefs p.identity p.protocol).bind
                  (fun r => r.preferenceOrder)))
             cannotUse := p.cannotUse }) ∧
    (∀ id q, ¬ (id = p.identity ∧ q = p.protocol) →
      findPref (updateChannelPreference db p).prefs id q = findPref db.prefs id q) ∧
    (p.lastAckAt = none → p.avgLatencyMs = none →
      (findPref (updateChannelPreference db p).prefs p.identity p.protocol).map
        (fun r => (r.lastAckAt, r.avgLatencyMs)) = some (none, none)) := by
  refine ⟨?_, ?_, ?_⟩
  · rw [findPref_updateChannelPreference, if_pos ⟨rfl, rfl⟩]
  · intro id q hne
    rw [findPref_updateChannelPreference, if_neg hne]
  · intro hla hal
    rw [findPref_updateChannelPreference, if_pos ⟨rfl, rfl⟩]
    simp [hla, hal, jsOrNullI]

/-- Witness for C9 (amended): the ack-style upsert (no lastAckAt, no
avgLatencyMs supplied) on the store with a learned row resets both to
null. -/
theorem C9_amended_upsert_frame_witness :
    (({ identity := "alice", protocol := "nostr", isWorking := true,
        preferenceOrder := some 3, cannotUse := false } : ChannelPrefArg).lastAckAt = none ∧
     ({ identity := "alice", protocol := "nostr", isWorking := true,
        preferenceOrder := some 3, cannotUse := false } : ChannelPrefArg).avgLatencyMs = none) ∧
    (findPref (updateChannelPreference wPrefDb
        { identity := "alice", protocol := "nostr", isWorking := true,
          preferenceOrder := some 3, cannotUse := false }).prefs "alice" "nostr").map
      (fun r => (r.lastAckAt, r.avgLatencyMs)) = some (none, none) :=
  ⟨⟨rfl, rfl⟩,
   (C9_amended_upsert_frame wPrefDb
     { identity := "alice", protocol := "nostr", isWorking := true,
       preferenceOrder := some 3, cannotUse := false }).2.2 rfl rfl⟩
